import Mathlib

/-!
Verification of the move-selection core in `strategies.py` (class `Move`):
piece-square tables, `check_end_game`, `piece_value`, `eval_piece`,
`evaluate_board`, `minimax`, `minimax_root`, `is_equivalent`,
`move_from_book` and `search`.

The rules engine (the `chess` library) is external to the repository; the
parts of its API that the source uses (`piece_at`, `turn`, `legal_moves`,
`push`/`pop`, `is_checkmate`, `is_game_over`, `can_claim_draw`) are modelled
as an abstract `Rules` structure for the search code, and concretely (board
array plus move application) for the opening-book code, which replays fixed
move lists from the start position.
-/

namespace CheesePy

/-- Chess piece kinds, mirroring `chess.PAWN` .. `chess.KING`. -/
inductive PieceType where
  | pawn | knight | bishop | rook | queen | king
deriving DecidableEq

/-- Piece colours, mirroring `chess.WHITE` / `chess.BLACK`. -/
inductive PColor where
  | white | black
deriving DecidableEq

/-- A piece as returned by `board.piece_at`: a kind and a colour. -/
structure Piece where
  pieceType : PieceType
  color : PColor
deriving DecidableEq

/-- Scores in the search: the source uses Python ints produced by
`evaluate_board` together with the sentinels `-float("inf")` and
`float("inf")`, so scores are integers extended with a bottom and a top
element. -/
abbrev Score := WithBot (WithTop ℤ)

/-- Embeds an integer evaluation into `Score`. -/
def intScore (n : ℤ) : Score := ((n : WithTop ℤ) : Score)

/-- The part of the external rules-engine API (`python-chess`) that the
search and evaluation code consumes, over an opaque board type `B` and an
opaque move type `M`. Squares are numbered 0..63 as in `chess.SQUARES`. -/
structure Rules (B M : Type) where
  piece_at : B → Nat → Option Piece
  turn : B → PColor
  legal_moves : B → List M
  push : B → M → B
  is_checkmate : B → Bool
  is_game_over : B → Bool
  can_claim_draw : B → Bool

/-- Literal `pawnWhiteTable` from the source. -/
def pawnWhiteTable : List ℤ := [
  0,  0,  0,  0,  0,  0,  0,  0,
  50, 50, 50, 50, 50, 50, 50, 50,
  10, 10, 20, 30, 30, 20, 10, 10,
  5,  5, 10, 25, 25, 10,  5,  5,
  0,  0,  0, 20, 20,  0,  0,  0,
  5, -5, -10, 0,  0, -10, -5, 5,
  5, 10, 10, -20, -20, 10, 10, 5,
  0,  0,  0,  0,  0,  0,  0,  0]

/-- In the source: `pawnBlackTable = list(reversed(pawnWhiteTable))`. -/
def pawnBlackTable : List ℤ := pawnWhiteTable.reverse

/-- Literal `knightWhiteTable` from the source. -/
def knightWhiteTable : List ℤ := [
  -50, -40, -30, -30, -30, -30, -40, -50,
  -40, -20, 0,   0,   0,   0,  -20, -40,
  -30, 0,   10,  15,  15,  10,  0,  -30,
  -30, 5,   15,  20,  20,  15,  5,  -30,
  -30, 0,   15,  20,  20,  15,  0,  -30,
  -30, 5,   10,  15,  15,  10,  5,  -30,
  -40, -20, 0,   5,   5,   0,  -20, -40,
  -50, -40, -30, -30, -30, -30, -40, -50]

/-- In the source: `knightBlackTable = list(reversed(knightWhiteTable))`. -/
def knightBlackTable : List ℤ := knightWhiteTable.reverse

/-- Literal `bishopWhiteTable` from the source. -/
def bishopWhiteTable : List ℤ := [
  -20, -10, -10, -10, -10, -10, -10, -20,
  -10, 0,   0,   0,   0,   0,   0,  -10,
  -10, 0,   5,   10,  10,  5,   0,  -10,
  -10, 5,   5,   10,  10,  5,   5,  -10,
  -10, 0,   10,  10,  10,  10,  0,  -10,
  -10, 10,  10,  10,  10,  10,  10, -10,
  -10, 5,   0,   0,   0,   0,   5,  -10,
  -20, -10, -10, -10, -10, -10, -10, -20]

/-- In the source: `bishopBlackTable = list(reversed(bishopWhiteTable))`. -/
def bishopBlackTable : List ℤ := bishopWhiteTable.reverse

/-- Literal `rookWhiteTable` from the source. -/
def rookWhiteTable : List ℤ := [
  0,  0,  0,  0,  0,  0,  0,  0,
  5,  10, 10, 10, 10, 10, 10, 5,
  -5, 0,  0,  0,  0,  0,  0,  -5,
  -5, 0,  0,  0,  0,  0,  0,  -5,
  -5, 0,  0,  0,  0,  0,  0,  -5,
  -5, 0,  0,  0,  0,  0,  0,  -5,
  -5, 0,  0,  0,  0,  0,  0,  -5,
  0,  0,  0,  5,  5,  0,  0,  0]

/-- In the source: `rookBlackTable = list(reversed(rookWhiteTable))`. -/
def rookBlackTable : List ℤ := rookWhiteTable.reverse

/-- Literal `queenWhiteTable` from the source. -/
def queenWhiteTable : List ℤ := [
  -20, -10, -10, -5, -5, -10, -10, -20,
  -10, 0,   0,   0,  0,  0,   0,  -10,
  -10, 0,   5,   5,  5,  5,   0,  -10,
  -5,  0,   5,   5,  5,  5,   0,  -5,
  0,   0,   5,   5,  5,  5,   0,  -5,
  -10, 5,   5,   5,  5,  5,   0,  -10,
  -10, 0,   5,   0,  0,  0,   0,  -10,
  -20, -10, -10, -5, -5, -10, -10, -20]

/-- In the source: `queenBlackTable = list(reversed(queenWhiteTable))`. -/
def queenBlackTable : List ℤ := queenWhiteTable.reverse

/-- Literal `kingWhiteMiddlegameTable` from the source. -/
def kingWhiteMiddlegameTable : List ℤ := [
  -30, -40, -40, -50, -50, -40, -40, -30,
  -30, -40, -40, -50, -50, -40, -40, -30,
  -30, -40, -40, -50, -50, -40, -40, -30,
  -30, -40, -40, -50, -50, -40, -40, -30,
  -20, -30, -30, -40, -40, -30, -30, -20,
  -10, -20, -20, -20, -20, -20, -20, -10,
  20,  20,  0,   0,   0,   0,   20,  20,
  20,  30,  10,  0,   0,   10,  30,  20]

/-- In the source: reversed `kingWhiteMiddlegameTable`. -/
def kingBlackMiddlegameTable : List ℤ := kingWhiteMiddlegameTable.reverse

/-- Literal `kingWhiteEndgameTable` from the source. -/
def kingWhiteEndgameTable : List ℤ := [
  -50, -40, -30, -20, -20, -30, -40, -50,
  -30, -20, -10, 0,   0,   -10, -20, -30,
  -30, -10, 20,  30,  30,  20,  -10, -30,
  -30, -10, 30,  40,  40,  30,  -10, -30,
  -30, -10, 30,  40,  40,  30,  -10, -30,
  -30, -10, 20,  30,  30,  20,  -10, -30,
  -30, -30, 0,   0,   0,   0,   -30, -30,
  -50, -30, -30, -30, -30, -30, -30, -50]

/-- In the source: reversed `kingWhiteEndgameTable`. -/
def kingBlackEndgameTable : List ℤ := kingWhiteEndgameTable.reverse

/-- Source `check_end_game`: scan the 64 squares, count queens and minor
pieces (bishops and knights) of both colours; the position is an endgame
iff there are no queens, or exactly two queens with at most one minor. -/
def check_end_game {B M : Type} (r : Rules B M) (board : B) : Bool :=
  let queens := (List.range 64).countP (fun square =>
    match r.piece_at board square with
    | some piece => piece.pieceType = PieceType.queen
    | none => false)
  let minors := (List.range 64).countP (fun square =>
    match r.piece_at board square with
    | some piece =>
        piece.pieceType = PieceType.bishop ∨ piece.pieceType = PieceType.knight
    | none => false)
  decide (queens = 0 ∨ (queens = 2 ∧ minors ≤ 1))

/-- Source `piece_value`: base material value by piece kind; `None` is
worth 0. -/
def piece_value (piece : Option Piece) : ℤ :=
  match piece with
  | none => 0
  | some p =>
    match p.pieceType with
    | PieceType.pawn => 100
    | PieceType.knight => 320
    | PieceType.bishop => 330
    | PieceType.rook => 500
    | PieceType.queen => 900
    | PieceType.king => 200000

/-- Source `eval_piece`: positional offset of a piece on a square, looked
up in the table selected by kind, colour, and (for kings) game phase. The
source selects `mapping` through a chain of `if` tests on the piece kind;
exactly one of them fires, which is the `match` below. -/
def eval_piece (piece : Option Piece) (square : Nat) (endgame : Bool) : ℤ :=
  match piece with
  | none => 0
  | some p =>
    let mapping :=
      match p.pieceType with
      | PieceType.pawn =>
          if p.color = PColor.white then pawnWhiteTable else pawnBlackTable
      | PieceType.knight =>
          if p.color = PColor.white then knightWhiteTable else knightBlackTable
      | PieceType.bishop =>
          if p.color = PColor.white then bishopWhiteTable else bishopBlackTable
      | PieceType.rook =>
          if p.color = PColor.white then rookWhiteTable else rookBlackTable
      | PieceType.queen =>
          if p.color = PColor.white then queenWhiteTable else queenBlackTable
      | PieceType.king =>
          if endgame then
            if p.color = PColor.white then kingWhiteEndgameTable
            else kingBlackEndgameTable
          else
            if p.color = PColor.white then kingWhiteMiddlegameTable
            else kingBlackMiddlegameTable
    mapping.getD square 0

/-- Contribution of one square to `evaluate_board`: 0 for an empty square,
otherwise base value plus positional offset, signed by colour. -/
def square_score {B M : Type} (r : Rules B M) (board : B) (square : Nat) : ℤ :=
  match r.piece_at board square with
  | none => 0
  | some piece =>
    let value := piece_value (some piece) +
      eval_piece (some piece) square (check_end_game r board)
    if piece.color = PColor.white then value else -value

/-- Source `evaluate_board`: the loop `for square in chess.SQUARES`
accumulating the signed per-square values (the source recomputes
`check_end_game` inside the loop on the unchanged board, so it is the same
value at every square). -/
def evaluate_board {B M : Type} (r : Rules B M) (board : B) : ℤ :=
  (List.range 64).foldl (fun total square => total + square_score r board square) 0

/-- The mutable `chess.Board` that the search threads through
`push`/`pop`: the current board plus the stack of boards that `pop`
restores (python-chess keeps a move stack with the same effect). -/
structure SPos (B : Type) where
  board : B
  stack : List B
deriving DecidableEq

/-- Effect of `board.push(move)` on the threaded board state. -/
def spush {B M : Type} (r : Rules B M) (s : SPos B) (m : M) : SPos B :=
  ⟨r.push s.board m, s.board :: s.stack⟩

/-- Effect of `board.pop()` on the threaded board state (the source only
pops after a matching push, so the stack is never empty there). -/
def spop {B : Type} (s : SPos B) : SPos B :=
  match s.stack with
  | [] => s
  | b :: rest => ⟨b, rest⟩

/-- Maximizing loop of `minimax`: `best_move = max(best_move, rec)`,
`alpha = max(alpha, best_move)`, early return once `beta <= alpha`; each
iteration pushes the move before the recursive call and pops it after, on
both the early-return path and the fall-through path. `rec` is the
recursive call at depth − 1 with the alpha in force at that iteration. -/
def maxLoop {B M : Type} (r : Rules B M) (rec : Score → SPos B → Score × SPos B)
    (beta : Score) : List M → Score → Score → SPos B → Score × SPos B
  | [], best, _alpha, s => (best, s)
  | move :: rest, best, alpha, s =>
    let s1 := spush r s move
    let res := rec alpha s1
    let s2 := spop res.2
    let best1 := max best res.1
    let alpha1 := max alpha best1
    if beta ≤ alpha1 then (best1, s2)
    else maxLoop r rec beta rest best1 alpha1 s2

/-- Minimizing loop of `minimax`, symmetric to `maxLoop` with `min` and
`beta`. -/
def minLoop {B M : Type} (r : Rules B M) (rec : Score → SPos B → Score × SPos B)
    (alpha : Score) : List M → Score → Score → SPos B → Score × SPos B
  | [], best, _beta, s => (best, s)
  | move :: rest, best, beta, s =>
    let s1 := spush r s move
    let res := rec beta s1
    let s2 := spop res.2
    let best1 := min best res.1
    let beta1 := min beta best1
    if beta1 ≤ alpha then (best1, s2)
    else minLoop r rec alpha rest best1 beta1 s2

/-- Source `minimax(depth, board, alpha, beta, is_maximising_player)`:
checkmate returns −∞ for the maximizer and +∞ for the minimizer, any other
game-over position returns 0, both before the depth test; depth 0 returns
`evaluate_board`; otherwise the alpha-beta loop over the legal moves. The
returned pair is (score, board state after the call). -/
def minimax {B M : Type} (r : Rules B M) :
    Nat → SPos B → Score → Score → Bool → Score × SPos B
  | depth, s, alpha, beta, isMax =>
    if r.is_checkmate s.board then
      (if isMax then (⊥ : Score) else (⊤ : Score), s)
    else if r.is_game_over s.board then (intScore 0, s)
    else
      match depth with
      | 0 => (intScore (evaluate_board r s.board), s)
      | d + 1 =>
        if isMax then
          maxLoop r (fun a s' => minimax r d s' a beta false) beta
            (r.legal_moves s.board) ⊥ alpha s
        else
          minLoop r (fun b s' => minimax r d s' alpha b true) alpha
            (r.legal_moves s.board) ⊤ beta s

/-- Root loop of `minimax_root`: score each move (0 if the position after
it allows a claimable draw, else the recursive search with the full
window), and replace the tracked best on `value >= best` for the maximizer
resp. `value <= best` for the minimizer. -/
def rootLoop {B M : Type} (r : Rules B M) (depth : Nat) (maximize : Bool) :
    List M → Score → M → SPos B → (Score × M) × SPos B
  | [], best, bestFound, s => ((best, bestFound), s)
  | move :: rest, best, bestFound, s =>
    let s1 := spush r s move
    let res :=
      if r.can_claim_draw s1.board then (intScore 0, s1)
      else minimax r (depth - 1) s1 ⊥ ⊤ (!maximize)
    let s2 := spop res.2
    if maximize ∧ best ≤ res.1 then rootLoop r depth maximize rest res.1 move s2
    else if (!maximize) ∧ res.1 ≤ best then rootLoop r depth maximize rest res.1 move s2
    else rootLoop r depth maximize rest best bestFound s2

/-- Source `minimax_root(depth, board)`: maximize iff white to move, best
value starts at −∞ (maximizer) or +∞ (minimizer), the tracked best move
starts as the first legal move. The source indexes `moves[0]` and raises
on an empty move list; that path returns `none` here. The source is only
called with `depth = 3`, where Python's `depth - 1` agrees with the
truncated subtraction used here. -/
def minimax_root {B M : Type} (r : Rules B M) (depth : Nat) (s : SPos B) :
    Option M × SPos B :=
  let maximize := decide (r.turn s.board = PColor.white)
  let best : Score := if maximize then ⊥ else ⊤
  match r.legal_moves s.board with
  | [] => (none, s)
  | m0 :: _ =>
    let res := rootLoop r depth maximize (r.legal_moves s.board) best m0 s
    (some res.1.2, res.2)

/-- Score-level form of `maxLoop` (the board threading stripped): used to
state and prove properties of the score `minimax` computes. `rec` gives
the child score for a move under the alpha in force. -/
def maxLoopV {M : Type} (rec : Score → M → Score) (beta : Score) :
    List M → Score → Score → Score
  | [], best, _alpha => best
  | move :: rest, best, alpha =>
    let v := rec alpha move
    let best1 := max best v
    let alpha1 := max alpha best1
    if beta ≤ alpha1 then best1
    else maxLoopV rec beta rest best1 alpha1

/-- Score-level form of `minLoop`. -/
def minLoopV {M : Type} (rec : Score → M → Score) (alpha : Score) :
    List M → Score → Score → Score
  | [], best, _beta => best
  | move :: rest, best, beta =>
    let v := rec beta move
    let best1 := min best v
    let beta1 := min beta best1
    if beta1 ≤ alpha then best1
    else minLoopV rec alpha rest best1 beta1

/-- Score computed by `minimax`, as a pure function of the current board. -/
def minimaxV {B M : Type} (r : Rules B M) :
    Nat → B → Score → Score → Bool → Score
  | depth, b, alpha, beta, isMax =>
    if r.is_checkmate b then (if isMax then (⊥ : Score) else (⊤ : Score))
    else if r.is_game_over b then intScore 0
    else
      match depth with
      | 0 => intScore (evaluate_board r b)
      | d + 1 =>
        if isMax then
          maxLoopV (fun a move => minimaxV r d (r.push b move) a beta false) beta
            (r.legal_moves b) ⊥ alpha
        else
          minLoopV (fun bta move => minimaxV r d (r.push b move) alpha bta true) alpha
            (r.legal_moves b) ⊤ beta

/-- Fold computing the maximum of the child values over a move list,
starting from `best` (the unpruned maximizing level). -/
def maxFold {M : Type} (v : M → Score) : List M → Score → Score
  | [], best => best
  | move :: rest, best => maxFold v rest (max best (v move))

/-- Fold computing the minimum of the child values over a move list. -/
def minFold {M : Type} (v : M → Score) : List M → Score → Score
  | [], best => best
  | move :: rest, best => minFold v rest (min best (v move))

/-- Unpruned full minimax at the same depth, used as the reference point
of the spec's alpha-beta equivalence property: identical terminal and
depth-0 cases, but every child is searched and combined with max / min,
with no window and no cutoff. -/
def fullMinimax {B M : Type} (r : Rules B M) : Nat → B → Bool → Score
  | depth, b, isMax =>
    if r.is_checkmate b then (if isMax then (⊥ : Score) else (⊤ : Score))
    else if r.is_game_over b then intScore 0
    else
      match depth with
      | 0 => intScore (evaluate_board r b)
      | d + 1 =>
        if isMax then
          maxFold (fun move => fullMinimax r d (r.push b move) false)
            (r.legal_moves b) ⊥
        else
          minFold (fun move => fullMinimax r d (r.push b move) true)
            (r.legal_moves b) ⊤

/-- Root value of a move in `minimax_root`: 0 when the position after the
move allows a claimable draw, else the recursive search at depth − 1 with
the full window.  `val` abstracts which minimax computes the child score. -/
def rootValueWith {B M : Type} (r : Rules B M) (val : B → Score)
    (b : B) (move : M) : Score :=
  if r.can_claim_draw (r.push b move) then intScore 0 else val (r.push b move)

/-- Score-level root loop: tracked (best value, best move) pair. -/
def rootLoopV {M : Type} (val : M → Score) (maximize : Bool) :
    List M → Score → M → Score × M
  | [], best, bestFound => (best, bestFound)
  | move :: rest, best, bestFound =>
    if maximize ∧ best ≤ val move then rootLoopV val maximize rest (val move) move
    else if (!maximize) ∧ val move ≤ best then rootLoopV val maximize rest (val move) move
    else rootLoopV val maximize rest best bestFound

/-- Root driver of the unpruned reference search: like `minimax_root` but
with every child scored by `fullMinimax`. -/
def fullMinimaxRoot {B M : Type} (r : Rules B M) (depth : Nat) (b : B) :
    Option M :=
  let maximize := decide (r.turn b = PColor.white)
  let best : Score := if maximize then ⊥ else ⊤
  match r.legal_moves b with
  | [] => none
  | m0 :: _ =>
    some (rootLoopV
      (rootValueWith r (fun b' => fullMinimax r (depth - 1) b' (!maximize)) b)
      maximize (r.legal_moves b) best m0).2

/-- Concrete board for the opening-book code, modelling the state of a
`chess.Board` that the book code reads: the occupancy of the 64 squares
(square 0 = a1, square 63 = h8, square = rank * 8 + file as in
`chess.SQUARES`), the side to move, and the full-move number. The
occupancy is packed as a base-13 integer, one digit per square (python-
chess stores it as bitboards; only the `piece_at` view of it is ever
consumed). `is_equivalent` only ever reads the squares; turn and
full-move number are carried because `chess.Board` carries them. -/
structure Board where
  occ : Nat
  turn : PColor
  fullmove : Nat
deriving DecidableEq

/-- Encoding of a square's content as a base-13 digit: 0 empty, 1–6 white
pawn..king, 7–12 black pawn..king. -/
def pieceCode (p : Option Piece) : Nat :=
  match p with
  | none => 0
  | some q =>
    let k :=
      match q.pieceType with
      | PieceType.pawn => 1
      | PieceType.knight => 2
      | PieceType.bishop => 3
      | PieceType.rook => 4
      | PieceType.queen => 5
      | PieceType.king => 6
    match q.color with
    | PColor.white => k
    | PColor.black => k + 6

/-- Decoding of a base-13 digit back to a square content. -/
def codePiece (n : Nat) : Option Piece :=
  match n with
  | 1 => some ⟨PieceType.pawn, PColor.white⟩
  | 2 => some ⟨PieceType.knight, PColor.white⟩
  | 3 => some ⟨PieceType.bishop, PColor.white⟩
  | 4 => some ⟨PieceType.rook, PColor.white⟩
  | 5 => some ⟨PieceType.queen, PColor.white⟩
  | 6 => some ⟨PieceType.king, PColor.white⟩
  | 7 => some ⟨PieceType.pawn, PColor.black⟩
  | 8 => some ⟨PieceType.knight, PColor.black⟩
  | 9 => some ⟨PieceType.bishop, PColor.black⟩
  | 10 => some ⟨PieceType.rook, PColor.black⟩
  | 11 => some ⟨PieceType.queen, PColor.black⟩
  | 12 => some ⟨PieceType.king, PColor.black⟩
  | _ => none

/-- Square index of a file letter and a rank digit, e.g. `sqOf 'e' '2' = 12`. -/
def sqOf (file rank : Char) : Nat :=
  (rank.toNat - '1'.toNat) * 8 + (file.toNat - 'a'.toNat)

/-- The opposite colour. -/
def otherColor : PColor → PColor
  | PColor.white => PColor.black
  | PColor.black => PColor.white

/-- `board.piece_at(square)` on the concrete board. -/
def board_piece_at (b : Board) (square : Nat) : Option Piece :=
  codePiece (b.occ / 13 ^ square % 13)

/-- Replaces the base-13 digit of `occ` at position `square` by `c`. -/
def setSq (occ square c : Nat) : Nat :=
  occ - occ / 13 ^ square % 13 * 13 ^ square + c * 13 ^ square

/-- Models `board.push(chess.Move.from_uci(m))` of the external rules
engine for the move shapes that occur in the book's replayed lines (plain
moves, captures, castling, en passant; the lines contain no promotions):
the piece on the from-square moves to the to-square; a king moving two
files also moves its rook; a pawn changing file onto an empty square
removes the passed pawn.  Side to move flips, and the full-move number
increments after a black move, as in `chess.Board.push`. -/
def pushUci (b : Board) (mv : String) : Board :=
  match mv.toList with
  | [f1, r1, f2, r2] =>
    let fromSq := sqOf f1 r1
    let toSq := sqOf f2 r2
    match board_piece_at b fromSq with
    | none => b
    | some p =>
      let o := b.occ
      let o :=
        if p.pieceType = PieceType.pawn ∧ f1 ≠ f2 ∧ codePiece (o / 13 ^ toSq % 13) = none
        then setSq o (sqOf f2 r1) 0 else o
      let o :=
        if p.pieceType = PieceType.king ∧ f1 = 'e' ∧ f2 = 'g' then
          setSq (setSq o (sqOf 'h' r1) 0) (sqOf 'f' r1)
            (pieceCode (some ⟨PieceType.rook, p.color⟩))
        else if p.pieceType = PieceType.king ∧ f1 = 'e' ∧ f2 = 'c' then
          setSq (setSq o (sqOf 'a' r1) 0) (sqOf 'd' r1)
            (pieceCode (some ⟨PieceType.rook, p.color⟩))
        else o
      let o := setSq (setSq o fromSq 0) toSq (pieceCode (some p))
      ⟨o, otherColor b.turn,
        if b.turn = PColor.black then b.fullmove + 1 else b.fullmove⟩
  | _ => b

/-- One back rank of the given colour. -/
def backRank (c : PColor) : List (Option Piece) :=
  [some ⟨PieceType.rook, c⟩, some ⟨PieceType.knight, c⟩,
   some ⟨PieceType.bishop, c⟩, some ⟨PieceType.queen, c⟩,
   some ⟨PieceType.king, c⟩, some ⟨PieceType.bishop, c⟩,
   some ⟨PieceType.knight, c⟩, some ⟨PieceType.rook, c⟩]

/-- Eight pawns of the given colour. -/
def pawnRank (c : PColor) : List (Option Piece) :=
  List.replicate 8 (some ⟨PieceType.pawn, c⟩)

/-- Packs a square list (a1 first) into the base-13 occupancy integer. -/
def packSquares (l : List (Option Piece)) : Nat :=
  l.foldr (fun p acc => pieceCode p + 13 * acc) 0

/-- `chess.Board()`: the standard starting position, white to move,
full-move number 1. -/
def startBoard : Board :=
  ⟨packSquares (backRank PColor.white ++ pawnRank PColor.white ++
     List.replicate 32 none ++
     pawnRank PColor.black ++ backRank PColor.black),
   PColor.white, 1⟩

/-- Source `is_equivalent(fen, board2)`: rebuild the recorded position and
compare `piece_at` on all 64 squares, nothing else. Book entries here
store the recorded position itself rather than its FEN string; the FEN
board field determines the occupancy exactly, so the comparison is the
same. -/
def is_equivalent (b1 b2 : Board) : Bool :=
  (List.range 64).all (fun square =>
    board_piece_at b1 square == board_piece_at b2 square)

/-- Literal `tscp_op` from the source: the fixed opening repertoire, one
list of UCI move strings per line. -/
def tscp_op : List (List String) := [
["g1f3", "g8f6", "c2c4", "b7b6", "g2g3"],
["g1f3", "g8f6", "c2c4", "c7c5", "b1c3", "b8c6"],
["g1f3", "g8f6", "c2c4", "c7c5", "b1c3", "e7e6", "g2g3", "b7b6", "f1g2", "c8b7", "e1g1", "f8e7"],
["g1f3", "g8f6", "c2c4", "c7c5", "g2g3"],
["g1f3", "g8f6", "c2c4", "e7e6", "b1c3", "d7d5", "d2d4", "b8d7"],
["g1f3", "g8f6", "c2c4", "e7e6", "b1c3", "d7d5", "d2d4", "f8e7", "c1f4", "e8g8", "e2e3"],
["g1f3", "g8f6", "c2c4", "e7e6", "b1c3", "d7d5", "d2d4", "f8e7", "c1g5", "h7h6", "g5h4", "e8g8", "e2e3", "b7b6"],
["g1f3", "g8f6", "c2c4", "e7e6", "b1c3", "d7d5", "d2d4", "f8e7", "c1g5", "e8g8", "e2e3", "h7h6"],
["g1f3", "g8f6", "c2c4", "e7e6", "b1c3", "d7d5", "d2d4", "f8b4"],
["g1f3", "g8f6", "c2c4", "e7e6", "b1c3", "d7d5", "d2d4", "c7c6", "c1g5"],
["g1f3", "g8f6", "c2c4", "e7e6", "b1c3", "d7d5", "d2d4", "c7c6", "e2e3", "b8d7", "d1c2", "f8d6"],
["g1f3", "g8f6", "c2c4", "e7e6", "b1c3", "d7d5", "d2d4", "c7c6", "e2e3", "b8d7", "f1d3", "d5c4", "d3c4", "b7b5", "c4d3"],
["g1f3", "g8f6", "c2c4", "e7e6", "b1c3", "d7d5", "d2d4", "c7c5"],
["g1f3", "g8f6", "c2c4", "e7e6", "g2g3", "d7d5", "f1g2", "f8e7"],
["g1f3", "g8f6", "c2c4", "g7g6", "b1c3", "f8g7", "e2e4"],
["g1f3", "g8f6", "c2c4", "g7g6", "g2g3", "f8g7", "f1g2", "e8g8"],
["g1f3", "g8f6", "d2d4", "c7c5"],
["g1f3", "g8f6", "d2d4", "d7d5", "c2c4", "c7c6", "b1c3", "d5c4", "a2a4", "c8f5", "e2e3", "e7e6", "f1c4"],
["g1f3", "g8f6", "d2d4", "d7d5", "c2c4", "c7c6", "b1c3", "e7e6", "c1g5"],
["g1f3", "g8f6", "d2d4", "d7d5", "c2c4", "c7c6", "b1c3", "e7e6", "e2e3", "b8d7", "d1c2", "f8d6"],
["g1f3", "g8f6", "d2d4", "d7d5", "c2c4", "c7c6", "b1c3", "e7e6", "e2e3", "b8d7", "f1d3", "d5c4", "d3c4", "b7b5", "c4d3"],
["g1f3", "g8f6", "d2d4", "d7d5", "c2c4", "c7c6", "e2e3"],
["g1f3", "g8f6", "d2d4", "d7d5", "c2c4", "d5c4", "e2e3", "e7e6", "f1c4", "c7c5", "e1g1", "a7a6"],
["g1f3", "g8f6", "d2d4", "d7d5", "c2c4", "e7e6", "b1c3", "b8d7"],
["g1f3", "g8f6", "d2d4", "d7d5", "c2c4", "e7e6", "b1c3", "f8e7", "c1f4", "e8g8", "e2e3"],
["g1f3", "g8f6", "d2d4", "d7d5", "c2c4", "e7e6", "b1c3", "f8e7", "c1g5", "h7h6", "g5h4", "e8g8", "e2e3", "b7b6"],
["g1f3", "g8f6", "d2d4", "d7d5", "c2c4", "e7e6", "b1c3", "f8e7", "c1g5", "e8g8", "e2e3", "h7h6"],
["g1f3", "g8f6", "d2d4", "d7d5", "c2c4", "e7e6", "b1c3", "f8b4"],
["g1f3", "g8f6", "d2d4", "d7d5", "c2c4", "e7e6", "b1c3", "c7c6", "c1g5"],
["g1f3", "g8f6", "d2d4", "d7d5", "c2c4", "e7e6", "b1c3", "c7c6", "e2e3", "b8d7", "d1c2", "f8d6"],
["g1f3", "g8f6", "d2d4", "d7d5", "c2c4", "e7e6", "b1c3", "c7c6", "e2e3", "b8d7", "f1d3", "d5c4", "d3c4", "b7b5", "c4d3"],
["g1f3", "g8f6", "d2d4", "d7d5", "c2c4", "e7e6", "b1c3", "c7c5"],
["g1f3", "g8f6", "d2d4", "d7d5", "c2c4", "e7e6", "c1g5"],
["g1f3", "g8f6", "d2d4", "d7d5", "c2c4", "e7e6", "g2g3"],
["g1f3", "g8f6", "d2d4", "e7e6", "c1g5"],
["g1f3", "g8f6", "d2d4", "e7e6", "c2c4", "f8b4", "b1d2"],
["g1f3", "g8f6", "d2d4", "e7e6", "c2c4", "f8b4", "c1d2"],
["g1f3", "g8f6", "d2d4", "e7e6", "c2c4", "b7b6", "b1c3", "c8b7", "a2a3", "d7d5", "c4d5", "f6d5"],
["g1f3", "g8f6", "d2d4", "e7e6", "c2c4", "b7b6", "b1c3", "f8b4"],
["g1f3", "g8f6", "d2d4", "e7e6", "c2c4", "b7b6", "a2a3", "c8b7", "b1c3", "d7d5", "c4d5", "f6d5"],
["g1f3", "g8f6", "d2d4", "e7e6", "c2c4", "b7b6", "g2g3", "c8b7", "f1g2", "f8e7", "e1g1", "e8g8", "b1c3", "f6e4", "d1c2", "e4c3", "c2c3"],
["g1f3", "g8f6", "d2d4", "e7e6", "c2c4", "b7b6", "g2g3", "c8a6", "b2b3", "f8b4", "c1d2", "b4e7"],
["g1f3", "g8f6", "d2d4", "e7e6", "c2c4", "c7c5", "d4d5", "e6d5", "c4d5", "d7d6", "b1c3", "g7g6"],
["g1f3", "g8f6", "d2d4", "e7e6", "c2c4", "d7d5", "b1c3", "b8d7"],
["g1f3", "g8f6", "d2d4", "e7e6", "c2c4", "d7d5", "b1c3", "f8e7", "c1f4", "e8g8", "e2e3"],
["g1f3", "g8f6", "d2d4", "e7e6", "c2c4", "d7d5", "b1c3", "f8e7", "c1g5", "h7h6", "g5h4", "e8g8", "e2e3", "b7b6"],
["g1f3", "g8f6", "d2d4", "e7e6", "c2c4", "d7d5", "b1c3", "f8e7", "c1g5", "e8g8", "e2e3", "h7h6"],
["g1f3", "g8f6", "d2d4", "e7e6", "c2c4", "d7d5", "b1c3", "f8b4"],
["g1f3", "g8f6", "d2d4", "e7e6", "c2c4", "d7d5", "b1c3", "c7c6", "c1g5"],
["g1f3", "g8f6", "d2d4", "e7e6", "c2c4", "d7d5", "b1c3", "c7c6", "e2e3", "b8d7", "d1c2", "f8d6"],
["g1f3", "g8f6", "d2d4", "e7e6", "c2c4", "d7d5", "b1c3", "c7c6", "e2e3", "b8d7", "f1d3", "d5c4", "d3c4", "b7b5", "c4d3"],
["g1f3", "g8f6", "d2d4", "e7e6", "c2c4", "d7d5", "b1c3", "c7c5"],
["g1f3", "g8f6", "d2d4", "e7e6", "c2c4", "d7d5", "c1g5"],
["g1f3", "g8f6", "d2d4", "e7e6", "c2c4", "d7d5", "g2g3"],
["g1f3", "g8f6", "d2d4", "e7e6", "g2g3"],
["g1f3", "g8f6", "d2d4", "g7g6", "c1g5"],
["g1f3", "g8f6", "d2d4", "g7g6", "c2c4", "f8g7", "b1c3", "e8g8", "e2e4", "d7d6", "f1e2", "e7e5", "e1g1", "b8c6", "d4d5", "c6e7", "f3e1", "f6d7"],
["g1f3", "g8f6", "d2d4", "g7g6", "c2c4", "f8g7", "g2g3", "e8g8", "f1g2", "d7d6", "e1g1"],
["g1f3", "g8f6", "d2d4", "g7g6", "g2g3", "f8g7", "f1g2", "e8g8"],
["g1f3", "g8f6", "g2g3", "g7g6"],
["g1f3", "c7c5", "c2c4", "b8c6"],
["g1f3", "c7c5", "c2c4", "g8f6", "b1c3", "b8c6"],
["g1f3", "c7c5", "c2c4", "g8f6", "b1c3", "e7e6", "g2g3", "b7b6", "f1g2", "c8b7", "e1g1", "f8e7"],
["g1f3", "c7c5", "c2c4", "g8f6", "g2g3"],
["g1f3", "d7d5", "c2c4"],
["g1f3", "d7d5", "d2d4", "g8f6", "c2c4", "c7c6", "b1c3", "d5c4", "a2a4", "c8f5", "e2e3", "e7e6", "f1c4"],
["g1f3", "d7d5", "d2d4", "g8f6", "c2c4", "c7c6", "b1c3", "e7e6", "c1g5"],
["g1f3", "d7d5", "d2d4", "g8f6", "c2c4", "c7c6", "b1c3", "e7e6", "e2e3", "b8d7", "d1c2", "f8d6"],
["g1f3", "d7d5", "d2d4", "g8f6", "c2c4", "c7c6", "b1c3", "e7e6", "e2e3", "b8d7", "f1d3", "d5c4", "d3c4", "b7b5", "c4d3"],
["g1f3", "d7d5", "d2d4", "g8f6", "c2c4", "c7c6", "e2e3"],
["g1f3", "d7d5", "d2d4", "g8f6", "c2c4", "d5c4", "e2e3", "e7e6", "f1c4", "c7c5", "e1g1", "a7a6"],
["g1f3", "d7d5", "d2d4", "g8f6", "c2c4", "e7e6", "b1c3", "b8d7"],
["g1f3", "d7d5", "d2d4", "g8f6", "c2c4", "e7e6", "b1c3", "f8e7", "c1f4", "e8g8", "e2e3"],
["g1f3", "d7d5", "d2d4", "g8f6", "c2c4", "e7e6", "b1c3", "f8e7", "c1g5", "h7h6", "g5h4", "e8g8", "e2e3", "b7b6"],
["g1f3", "d7d5", "d2d4", "g8f6", "c2c4", "e7e6", "b1c3", "f8e7", "c1g5", "e8g8", "e2e3", "h7h6"],
["g1f3", "d7d5", "d2d4", "g8f6", "c2c4", "e7e6", "b1c3", "f8b4"],
["g1f3", "d7d5", "d2d4", "g8f6", "c2c4", "e7e6", "b1c3", "c7c6", "c1g5"],
["g1f3", "d7d5", "d2d4", "g8f6", "c2c4", "e7e6", "b1c3", "c7c6", "e2e3", "b8d7", "d1c2", "f8d6"],
["g1f3", "d7d5", "d2d4", "g8f6", "c2c4", "e7e6", "b1c3", "c7c6", "e2e3", "b8d7", "f1d3", "d5c4", "d3c4", "b7b5", "c4d3"],
["g1f3", "d7d5", "d2d4", "g8f6", "c2c4", "e7e6", "b1c3", "c7c5"],
["g1f3", "d7d5", "d2d4", "g8f6", "c2c4", "e7e6", "c1g5"],
["g1f3", "d7d5", "d2d4", "g8f6", "c2c4", "e7e6", "g2g3"],
["g1f3", "d7d5", "g2g3"],
["g1f3", "g7g6"],
["c2c4", "g8f6", "b1c3", "c7c5"],
["c2c4", "g8f6", "b1c3", "e7e6", "g1f3", "d7d5", "d2d4", "b8d7"],
["c2c4", "g8f6", "b1c3", "e7e6", "g1f3", "d7d5", "d2d4", "f8e7", "c1f4", "e8g8", "e2e3"],
["c2c4", "g8f6", "b1c3", "e7e6", "g1f3", "d7d5", "d2d4", "f8e7", "c1g5", "h7h6", "g5h4", "e8g8", "e2e3", "b7b6"],
["c2c4", "g8f6", "b1c3", "e7e6", "g1f3", "d7d5", "d2d4", "f8e7", "c1g5", "e8g8", "e2e3", "h7h6"],
["c2c4", "g8f6", "b1c3", "e7e6", "g1f3", "d7d5", "d2d4", "f8b4"],
["c2c4", "g8f6", "b1c3", "e7e6", "g1f3", "d7d5", "d2d4", "c7c6", "c1g5"],
["c2c4", "g8f6", "b1c3", "e7e6", "g1f3", "d7d5", "d2d4", "c7c6", "e2e3", "b8d7", "d1c2", "f8d6"],
["c2c4", "g8f6", "b1c3", "e7e6", "g1f3", "d7d5", "d2d4", "c7c6", "e2e3", "b8d7", "f1d3", "d5c4", "d3c4", "b7b5", "c4d3"],
["c2c4", "g8f6", "b1c3", "e7e6", "g1f3", "d7d5", "d2d4", "c7c5"],
["c2c4", "g8f6", "b1c3", "e7e5", "g1f3", "b8c6", "g2g3"],
["c2c4", "g8f6", "b1c3", "g7g6"],
["c2c4", "g8f6", "g1f3", "b7b6", "g2g3"],
["c2c4", "g8f6", "g1f3", "c7c5", "b1c3", "b8c6"],
["c2c4", "g8f6", "g1f3", "c7c5", "b1c3", "e7e6", "g2g3", "b7b6", "f1g2", "c8b7", "e1g1", "f8e7"],
["c2c4", "g8f6", "g1f3", "c7c5", "g2g3"],
["c2c4", "g8f6", "g1f3", "e7e6", "b1c3", "d7d5", "d2d4", "b8d7"],
["c2c4", "g8f6", "g1f3", "e7e6", "b1c3", "d7d5", "d2d4", "f8e7", "c1f4", "e8g8", "e2e3"],
["c2c4", "g8f6", "g1f3", "e7e6", "b1c3", "d7d5", "d2d4", "f8e7", "c1g5", "h7h6", "g5h4", "e8g8", "e2e3", "b7b6"],
["c2c4", "g8f6", "g1f3", "e7e6", "b1c3", "d7d5", "d2d4", "f8e7", "c1g5", "e8g8", "e2e3", "h7h6"],
["c2c4", "g8f6", "g1f3", "e7e6", "b1c3", "d7d5", "d2d4", "f8b4"],
["c2c4", "g8f6", "g1f3", "e7e6", "b1c3", "d7d5", "d2d4", "c7c6", "c1g5"],
["c2c4", "g8f6", "g1f3", "e7e6", "b1c3", "d7d5", "d2d4", "c7c6", "e2e3", "b8d7", "d1c2", "f8d6"],
["c2c4", "g8f6", "g1f3", "e7e6", "b1c3", "d7d5", "d2d4", "c7c6", "e2e3", "b8d7", "f1d3", "d5c4", "d3c4", "b7b5", "c4d3"],
["c2c4", "g8f6", "g1f3", "e7e6", "b1c3", "d7d5", "d2d4", "c7c5"],
["c2c4", "g8f6", "g1f3", "e7e6", "g2g3", "d7d5", "f1g2", "f8e7"],
["c2c4", "g8f6", "g1f3", "g7g6", "b1c3", "f8g7", "e2e4"],
["c2c4", "g8f6", "g1f3", "g7g6", "g2g3", "f8g7", "f1g2", "e8g8"],
["c2c4", "c7c6"],
["c2c4", "c7c5", "g1f3", "b8c6"],
["c2c4", "c7c5", "g1f3", "g8f6", "b1c3", "b8c6"],
["c2c4", "c7c5", "g1f3", "g8f6", "b1c3", "e7e6", "g2g3", "b7b6", "f1g2", "c8b7", "e1g1", "f8e7"],
["c2c4", "c7c5", "g1f3", "g8f6", "g2g3"],
["c2c4", "e7e6", "b1c3", "d7d5", "d2d4", "f8e7", "g1f3", "g8f6", "c1f4", "e8g8", "e2e3"],
["c2c4", "e7e6", "b1c3", "d7d5", "d2d4", "f8e7", "g1f3", "g8f6", "c1g5", "h7h6", "g5h4", "e8g8", "e2e3", "b7b6"],
["c2c4", "e7e6", "b1c3", "d7d5", "d2d4", "f8e7", "g1f3", "g8f6", "c1g5", "e8g8", "e2e3", "h7h6"],
["c2c4", "e7e6", "b1c3", "d7d5", "d2d4", "g8f6", "c1g5", "f8e7", "e2e3"],
["c2c4", "e7e6", "b1c3", "d7d5", "d2d4", "g8f6", "g1f3", "b8d7"],
["c2c4", "e7e6", "b1c3", "d7d5", "d2d4", "g8f6", "g1f3", "f8e7", "c1f4", "e8g8", "e2e3"],
["c2c4", "e7e6", "b1c3", "d7d5", "d2d4", "g8f6", "g1f3", "f8e7", "c1g5", "h7h6", "g5h4", "e8g8", "e2e3", "b7b6"],
["c2c4", "e7e6", "b1c3", "d7d5", "d2d4", "g8f6", "g1f3", "f8e7", "c1g5", "e8g8", "e2e3", "h7h6"],
["c2c4", "e7e6", "b1c3", "d7d5", "d2d4", "g8f6", "g1f3", "f8b4"],
["c2c4", "e7e6", "b1c3", "d7d5", "d2d4", "g8f6", "g1f3", "c7c6", "c1g5"],
["c2c4", "e7e6", "b1c3", "d7d5", "d2d4", "g8f6", "g1f3", "c7c6", "e2e3", "b8d7", "d1c2", "f8d6"],
["c2c4", "e7e6", "b1c3", "d7d5", "d2d4", "g8f6", "g1f3", "c7c6",        "e2e3", "b8d7", "f1d3", "d5c4", "d3c4", "b7b5", "c4d3"],
["c2c4", "e7e6", "b1c3", "d7d5", "d2d4", "g8f6", "g1f3", "c7c5"],
["c2c4", "e7e6", "b1c3", "d7d5", "d2d4", "g8f6", "c4d5", "e6d5", "c1g5"],
["c2c4", "e7e6", "b1c3", "d7d5", "d2d4", "c7c6"],
["c2c4", "e7e6", "g1f3"],
["c2c4", "e7e5", "b1c3", "b8c6"],
["c2c4", "e7e5", "b1c3", "g8f6", "g1f3", "b8c6", "g2g3"],
["c2c4", "e7e5", "g2g3"],
["c2c4", "g7g6", "b1c3"],
["d2d4", "g8f6", "c1g5"],
["d2d4", "g8f6", "g1f3", "c7c5"],
["d2d4", "g8f6", "g1f3", "d7d5", "c2c4", "c7c6", "b1c3", "d5c4", "a2a4", "c8f5", "e2e3", "e7e6", "f1c4"],
["d2d4", "g8f6", "g1f3", "d7d5", "c2c4", "c7c6", "b1c3", "e7e6", "c1g5"],
["d2d4", "g8f6", "g1f3", "d7d5", "c2c4", "c7c6", "b1c3", "e7e6", "e2e3", "b8d7", "d1c2", "f8d6"],
["d2d4", "g8f6", "g1f3", "d7d5", "c2c4", "c7c6", "b1c3", "e7e6", "e2e3", "b8d7", "f1d3", "d5c4", "d3c4", "b7b5", "c4d3"],
["d2d4", "g8f6", "g1f3", "d7d5", "c2c4", "c7c6", "e2e3"],
["d2d4", "g8f6", "g1f3", "d7d5", "c2c4", "d5c4", "e2e3", "e7e6", "f1c4", "c7c5", "e1g1", "a7a6"],
["d2d4", "g8f6", "g1f3", "d7d5", "c2c4", "e7e6", "b1c3", "b8d7"],
["d2d4", "g8f6", "g1f3", "d7d5", "c2c4", "e7e6", "b1c3", "f8e7", "c1f4", "e8g8", "e2e3"],
["d2d4", "g8f6", "g1f3", "d7d5", "c2c4", "e7e6", "b1c3", "f8e7", "c1g5", "h7h6", "g5h4", "e8g8", "e2e3", "b7b6"],
["d2d4", "g8f6", "g1f3", "d7d5", "c2c4", "e7e6", "b1c3", "f8e7", "c1g5", "e8g8", "e2e3", "h7h6"],
["d2d4", "g8f6", "g1f3", "d7d5", "c2c4", "e7e6", "b1c3", "f8b4"],
["d2d4", "g8f6", "g1f3", "d7d5", "c2c4", "e7e6", "b1c3", "c7c6", "c1g5"],
["d2d4", "g8f6", "g1f3", "d7d5", "c2c4", "e7e6", "b1c3", "c7c6", "e2e3", "b8d7", "d1c2", "f8d6"],
["d2d4", "g8f6", "g1f3", "d7d5", "c2c4", "e7e6", "b1c3", "c7c6", "e2e3", "b8d7", "f1d3", "d5c4", "d3c4", "b7b5", "c4d3"],
["d2d4", "g8f6", "g1f3", "d7d5", "c2c4", "e7e6", "b1c3", "c7c5"],
["d2d4", "g8f6", "g1f3", "d7d5", "c2c4", "e7e6", "c1g5"],
["d2d4", "g8f6", "g1f3", "d7d5", "c2c4", "e7e6", "g2g3"],
["d2d4", "g8f6", "g1f3", "e7e6", "c1g5"],
["d2d4", "g8f6", "g1f3", "e7e6", "c2c4", "f8b4", "b1d2"],
["d2d4", "g8f6", "g1f3", "e7e6", "c2c4", "f8b4", "c1d2"],
["d2d4", "g8f6", "g1f3", "e7e6", "c2c4", "b7b6", "b1c3", "c8b7", "a2a3", "d7d5", "c4d5", "f6d5"],
["d2d4", "g8f6", "g1f3", "e7e6", "c2c4", "b7b6", "b1c3", "f8b4"],
["d2d4", "g8f6", "g1f3", "e7e6", "c2c4", "b7b6", "a2a3", "c8b7", "b1c3", "d7d5", "c4d5", "f6d5"],
["d2d4", "g8f6", "g1f3", "e7e6", "c2c4", "b7b6", "g2g3", "c8b7", "f1g2", "f8e7", "e1g1", "e8g8", "b1c3", "f6e4", "d1c2", "e4c3", "c2c3"],
["d2d4", "g8f6", "g1f3", "e7e6", "c2c4", "b7b6", "g2g3", "c8a6", "b2b3", "f8b4", "c1d2", "b4e7"],
["d2d4", "g8f6", "g1f3", "e7e6", "c2c4", "c7c5", "d4d5", "e6d5", "c4d5", "d7d6", "b1c3", "g7g6"],
["d2d4", "g8f6", "g1f3", "e7e6", "c2c4", "d7d5", "b1c3", "b8d7"],
["d2d4", "g8f6", "g1f3", "e7e6", "c2c4", "d7d5", "b1c3", "f8e7", "c1f4", "e8g8", "e2e3"],
["d2d4", "g8f6", "g1f3", "e7e6", "c2c4", "d7d5", "b1c3", "f8e7", "c1g5", "h7h6", "g5h4", "e8g8", "e2e3", "b7b6"],
["d2d4", "g8f6", "g1f3", "e7e6", "c2c4", "d7d5", "b1c3", "f8e7", "c1g5", "e8g8", "e2e3", "h7h6"],
["d2d4", "g8f6", "g1f3", "e7e6", "c2c4", "d7d5", "b1c3", "f8b4"],
["d2d4", "g8f6", "g1f3", "e7e6", "c2c4", "d7d5", "b1c3", "c7c6", "c1g5"],
["d2d4", "g8f6", "g1f3", "e7e6", "c2c4", "d7d5", "b1c3", "c7c6", "e2e3", "b8d7", "d1c2", "f8d6"],
["d2d4", "g8f6", "g1f3", "e7e6", "c2c4", "d7d5", "b1c3", "c7c6", "e2e3", "b8d7", "f1d3", "d5c4", "d3c4", "b7b5", "c4d3"],
["d2d4", "g8f6", "g1f3", "e7e6", "c2c4", "d7d5", "b1c3", "c7c5"],
["d2d4", "g8f6", "g1f3", "e7e6", "c2c4", "d7d5", "c1g5"],
["d2d4", "g8f6", "g1f3", "e7e6", "c2c4", "d7d5", "g2g3"],
["d2d4", "g8f6", "g1f3", "e7e6", "g2g3"],
["d2d4", "g8f6", "g1f3", "g7g6", "c1g5"],
["d2d4", "g8f6", "g1f3", "g7g6", "c2c4", "f8g7", "b1c3", "e8g8", "e2e4", "d7d6", "f1e2", "e7e5", "e1g1", "b8c6", "d4d5", "c6e7", "f3e1", "f6d7"],
["d2d4", "g8f6", "g1f3", "g7g6", "c2c4", "f8g7", "g2g3", "e8g8", "f1g2", "d7d6", "e1g1"],
["d2d4", "g8f6", "g1f3", "g7g6", "g2g3", "f8g7", "f1g2", "e8g8"],
["d2d4", "g8f6", "c2c4", "c7c5", "d4d5", "b7b5", "c4b5", "a7a6"],
["d2d4", "g8f6", "c2c4", "c7c5", "d4d5", "e7e6", "b1c3", "e6d5", "c4d5", "d7d6"],
["d2d4", "g8f6", "c2c4", "d7d6", "b1c3"],
["d2d4", "g8f6", "c2c4", "e7e6", "b1c3", "f8b4", "d1c2", "e8g8"],
["d2d4", "g8f6", "c2c4", "e7e6", "b1c3", "f8b4", "g1f3"],
["d2d4", "g8f6", "c2c4", "e7e6", "b1c3", "f8b4", "e2e3", "b7b6"],
["d2d4", "g8f6", "c2c4", "e7e6", "b1c3", "f8b4", "e2e3", "c7c5", "f1d3"],
["d2d4", "g8f6", "c2c4", "e7e6", "b1c3", "f8b4", "e2e3", "e8g8", "f1d3", "d7d5", "g1f3"],
["d2d4", "g8f6", "c2c4", "e7e6", "b1c3", "d7d5", "c1g5", "f8e7", "e2e3"],
["d2d4", "g8f6", "c2c4", "e7e6", "b1c3", "d7d5", "g1f3", "b8d7"],
["d2d4", "g8f6", "c2c4", "e7e6", "b1c3", "d7d5", "g1f3", "f8e7", "c1f4", "e8g8", "e2e3"],
["d2d4", "g8f6", "c2c4", "e7e6", "b1c3", "d7d5", "g1f3", "f8e7", "c1g5", "h7h6", "g5h4", "e8g8", "e2e3", "b7b6"],
["d2d4", "g8f6", "c2c4", "e7e6", "b1c3", "d7d5", "g1f3", "f8e7", "c1g5", "e8g8", "e2e3", "h7h6"],
["d2d4", "g8f6", "c2c4", "e7e6", "b1c3", "d7d5", "g1f3", "f8b4"],
["d2d4", "g8f6", "c2c4", "e7e6", "b1c3", "d7d5", "g1f3", "c7c6", "c1g5"],
["d2d4", "g8f6", "c2c4", "e7e6", "b1c3", "d7d5", "g1f3", "c7c6", "e2e3", "b8d7", "d1c2", "f8d6"],
["d2d4", "g8f6", "c2c4", "e7e6", "b1c3", "d7d5", "g1f3", "c7c6", "e2e3", "b8d7", "f1d3", "d5c4", "d3c4", "b7b5", "c4d3"],
["d2d4", "g8f6", "c2c4", "e7e6", "b1c3", "d7d5", "g1f3", "c7c5"],
["d2d4", "g8f6", "c2c4", "e7e6", "b1c3", "d7d5", "c4d5", "e6d5", "c1g5"],
["d2d4", "g8f6", "c2c4", "e7e6", "g1f3", "f8b4", "b1d2"],
["d2d4", "g8f6", "c2c4", "e7e6", "g1f3", "f8b4", "c1d2"],
["d2d4", "g8f6", "c2c4", "e7e6", "g1f3", "b7b6", "b1c3", "c8b7", "a2a3", "d7d5", "c4d5", "f6d5"],
["d2d4", "g8f6", "c2c4", "e7e6", "g1f3", "b7b6", "b1c3", "f8b4"],
["d2d4", "g8f6", "c2c4", "e7e6", "g1f3", "b7b6", "a2a3", "c8b7", "b1c3", "d7d5", "c4d5", "f6d5"],
["d2d4", "g8f6", "c2c4", "e7e6", "g1f3", "b7b6", "g2g3", "c8b7", "f1g2", "f8e7", "e1g1", "e8g8", "b1c3", "f6e4", "d1c2", "e4c3", "c2c3"],
["d2d4", "g8f6", "c2c4", "e7e6", "g1f3", "b7b6", "g2g3", "c8a6", "b2b3", "f8b4", "c1d2", "b4e7"],
["d2d4", "g8f6", "c2c4", "e7e6", "g1f3", "c7c5", "d4d5", "e6d5", "c4d5", "d7d6", "b1c3", "g7g6"],
["d2d4", "g8f6", "c2c4", "e7e6", "g1f3", "d7d5", "b1c3", "b8d7"],
["d2d4", "g8f6", "c2c4", "e7e6", "g1f3", "d7d5", "b1c3", "f8e7", "c1f4", "e8g8", "e2e3"],
["d2d4", "g8f6", "c2c4", "e7e6", "g1f3", "d7d5", "b1c3", "f8e7", "c1g5", "h7h6", "g5h4", "e8g8", "e2e3", "b7b6"],
["d2d4", "g8f6", "c2c4", "e7e6", "g1f3", "d7d5", "b1c3", "f8e7", "c1g5", "e8g8", "e2e3", "h7h6"],
["d2d4", "g8f6", "c2c4", "e7e6", "g1f3", "d7d5", "b1c3", "f8b4"],
["d2d4", "g8f6", "c2c4", "e7e6", "g1f3", "d7d5", "b1c3", "c7c6", "c1g5"],
["d2d4", "g8f6", "c2c4", "e7e6", "g1f3", "d7d5", "b1c3", "c7c6", "e2e3", "b8d7", "d1c2", "f8d6"],
["d2d4", "g8f6", "c2c4", "e7e6", "g1f3", "d7d5", "b1c3", "c7c6", "e2e3", "b8d7", "f1d3", "d5c4", "d3c4", "b7b5", "c4d3"],
["d2d4", "g8f6", "c2c4", "e7e6", "g1f3", "d7d5", "b1c3", "c7c5"],
["d2d4", "g8f6", "c2c4", "e7e6", "g1f3", "d7d5", "c1g5"],
["d2d4", "g8f6", "c2c4", "e7e6", "g1f3", "d7d5", "g2g3"],
["d2d4", "g8f6", "c2c4", "e7e6", "g2g3", "d7d5", "f1g2"],
["d2d4", "g8f6", "c2c4", "g7g6", "b1c3", "f8g7", "e2e4", "d7d6", "f1e2", "e8g8", "c1g5"],
["d2d4", "g8f6", "c2c4", "g7g6", "b1c3", "f8g7", "e2e4", "d7d6", "f1e2", "e8g8", "g1f3", "e7e5", "e1g1", "b8c6", "d4d5", "c6e7", "f3e1", "f6d7"],
["d2d4", "g8f6", "c2c4", "g7g6", "b1c3", "f8g7", "e2e4", "d7d6", "g1f3", "e8g8", "f1e2", "e7e5", "e1g1", "b8c6", "d4d5", "c6e7", "f3e1", "f6d7"],
["d2d4", "g8f6", "c2c4", "g7g6", "b1c3", "f8g7", "e2e4", "d7d6", "f2f3", "e8g8", "c1e3"],
["d2d4", "g8f6", "c2c4", "g7g6", "b1c3", "d7d5", "g1f3", "f8g7", "d1b3", "d5c4", "b3c4"],
["d2d4", "g8f6", "c2c4", "g7g6", "b1c3", "d7d5", "c4d5", "f6d5", "e2e4", "d5c3", "b2c3", "f8g7", "f1c4"],
["d2d4", "g8f6", "c2c4", "g7g6", "g1f3", "f8g7", "b1c3", "e8g8", "e2e4", "d7d6", "f1e2", "e7e5", "e1g1", "b8c6", "d4d5", "c6e7", "f3e1", "f6d7"],
["d2d4", "g8f6", "c2c4", "g7g6", "g1f3", "f8g7", "g2g3", "e8g8", "f1g2", "d7d6", "e1g1"],
["d2d4", "g8f6", "c2c4", "g7g6", "g2g3", "f8g7", "f1g2", "e8g8"],
["d2d4", "d7d6", "e2e4", "g8f6", "b1c3", "g7g6", "f2f4", "f8g7", "g1f3"],
["d2d4", "d7d6", "e2e4", "g7g6"],
["d2d4", "d7d5", "g1f3", "g8f6", "c2c4", "c7c6", "b1c3", "d5c4", "a2a4", "c8f5", "e2e3", "e7e6", "f1c4"],
["d2d4", "d7d5", "g1f3", "g8f6", "c2c4", "c7c6", "b1c3", "e7e6", "c1g5"],
["d2d4", "d7d5", "g1f3", "g8f6", "c2c4", "c7c6", "b1c3", "e7e6", "e2e3", "b8d7", "d1c2", "f8d6"],
["d2d4", "d7d5", "g1f3", "g8f6", "c2c4", "c7c6", "b1c3", "e7e6", "e2e3", "b8d7", "f1d3", "d5c4", "d3c4", "b7b5", "c4d3"],
["d2d4", "d7d5", "g1f3", "g8f6", "c2c4", "c7c6", "e2e3"],
["d2d4", "d7d5", "g1f3", "g8f6", "c2c4", "d5c4", "e2e3", "e7e6", "f1c4", "c7c5", "e1g1", "a7a6"],
["d2d4", "d7d5", "g1f3", "g8f6", "c2c4", "e7e6", "b1c3", "b8d7"],
["d2d4", "d7d5", "g1f3", "g8f6", "c2c4", "e7e6", "b1c3", "f8e7", "c1f4", "e8g8", "e2e3"],
["d2d4", "d7d5", "g1f3", "g8f6", "c2c4", "e7e6", "b1c3", "f8e7", "c1g5", "h7h6", "g5h4", "e8g8", "e2e3", "b7b6"],
["d2d4", "d7d5", "g1f3", "g8f6", "c2c4", "e7e6", "b1c3", "f8e7", "c1g5", "e8g8", "e2e3", "h7h6"],
["d2d4", "d7d5", "g1f3", "g8f6", "c2c4", "e7e6", "b1c3", "f8b4"],
["d2d4", "d7d5", "g1f3", "g8f6", "c2c4", "e7e6", "b1c3", "c7c6", "c1g5"],
["d2d4", "d7d5", "g1f3", "g8f6", "c2c4", "e7e6", "b1c3", "c7c6", "e2e3", "b8d7", "d1c2", "f8d6"],
["d2d4", "d7d5", "g1f3", "g8f6", "c2c4", "e7e6", "b1c3", "c7c6", "e2e3", "b8d7", "f1d3", "d5c4", "d3c4", "b7b5", "c4d3"],
["d2d4", "d7d5", "g1f3", "g8f6", "c2c4", "e7e6", "b1c3", "c7c5"],
["d2d4", "d7d5", "g1f3", "g8f6", "c2c4", "e7e6", "c1g5"],
["d2d4", "d7d5", "g1f3", "g8f6", "c2c4", "e7e6", "g2g3"],
["d2d4", "d7d5", "c2c4", "c7c6", "b1c3", "g8f6", "g1f3", "d5c4", "a2a4", "c8f5", "e2e3", "e7e6", "f1c4"],
["d2d4", "d7d5", "c2c4", "c7c6", "b1c3", "g8f6", "g1f3", "e7e6", "c1g5"],
["d2d4", "d7d5", "c2c4", "c7c6", "b1c3", "g8f6", "g1f3", "e7e6", "e2e3", "b8d7", "d1c2", "f8d6"],
["d2d4",        "d7d5", "c2c4", "c7c6", "b1c3", "g8f6", "g1f3", "e7e6", "e2e3", "b8d7", "f1d3", "d5c4", "d3c4", "b7b5", "c4d3"],
["d2d4", "d7d5", "c2c4", "c7c6", "b1c3", "g8f6", "e2e3"],
["d2d4", "d7d5", "c2c4", "c7c6", "g1f3", "g8f6", "b1c3", "d5c4", "a2a4", "c8f5", "e2e3", "e7e6", "f1c4"],
["d2d4", "d7d5", "c2c4", "c7c6", "g1f3", "g8f6", "b1c3", "e7e6", "c1g5"],
["d2d4", "d7d5", "c2c4", "c7c6", "g1f3", "g8f6", "b1c3", "e7e6", "e2e3", "b8d7", "d1c2", "f8d6"],
["d2d4", "d7d5", "c2c4", "c7c6", "g1f3", "g8f6", "b1c3", "e7e6", "e2e3", "b8d7", "f1d3", "d5c4", "d3c4", "b7b5", "c4d3"],
["d2d4", "d7d5", "c2c4", "c7c6", "g1f3", "g8f6", "e2e3"],
["d2d4", "d7d5", "c2c4", "d5c4", "g1f3", "g8f6", "e2e3", "e7e6", "f1c4", "c7c5", "e1g1", "a7a6"],
["d2d4", "d7d5", "c2c4", "e7e6", "b1c3", "f8e7", "g1f3", "g8f6", "c1f4", "e8g8", "e2e3"],
["d2d4", "d7d5", "c2c4", "e7e6", "b1c3", "f8e7", "g1f3", "g8f6", "c1g5", "h7h6", "g5h4", "e8g8", "e2e3", "b7b6"],
["d2d4", "d7d5", "c2c4", "e7e6", "b1c3", "f8e7", "g1f3", "g8f6", "c1g5", "e8g8", "e2e3", "h7h6"],
["d2d4", "d7d5", "c2c4", "e7e6", "b1c3", "g8f6", "c1g5", "f8e7", "e2e3"],
["d2d4", "d7d5", "c2c4", "e7e6", "b1c3", "g8f6", "g1f3", "b8d7"],
["d2d4", "d7d5", "c2c4", "e7e6", "b1c3", "g8f6", "g1f3", "f8e7", "c1f4", "e8g8", "e2e3"],
["d2d4", "d7d5", "c2c4", "e7e6", "b1c3", "g8f6", "g1f3", "f8e7", "c1g5", "h7h6", "g5h4", "e8g8", "e2e3", "b7b6"],
["d2d4", "d7d5", "c2c4", "e7e6", "b1c3", "g8f6", "g1f3", "f8e7", "c1g5", "e8g8", "e2e3", "h7h6"],
["d2d4", "d7d5", "c2c4", "e7e6", "b1c3", "g8f6", "g1f3", "f8b4"],
["d2d4", "d7d5", "c2c4", "e7e6", "b1c3", "g8f6", "g1f3", "c7c6", "c1g5"],
["d2d4", "d7d5", "c2c4", "e7e6", "b1c3", "g8f6", "g1f3", "c7c6", "e2e3", "b8d7", "d1c2", "f8d6"],
["d2d4", "d7d5", "c2c4", "e7e6", "b1c3", "g8f6", "g1f3", "c7c6", "e2e3", "b8d7", "f1d3", "d5c4", "d3c4", "b7b5", "c4d3"],
["d2d4", "d7d5", "c2c4", "e7e6", "b1c3", "g8f6", "g1f3", "c7c5"],
["d2d4", "d7d5", "c2c4", "e7e6", "b1c3", "g8f6", "c4d5", "e6d5", "c1g5"],
["d2d4", "d7d5", "c2c4", "e7e6", "b1c3", "c7c6"],
["d2d4", "d7d5", "c2c4", "e7e6", "g1f3", "g8f6", "b1c3", "b8d7"],
["d2d4", "d7d5", "c2c4", "e7e6", "g1f3", "g8f6", "b1c3", "f8e7", "c1f4", "e8g8", "e2e3"],
["d2d4", "d7d5", "c2c4", "e7e6", "g1f3", "g8f6", "b1c3", "f8e7", "c1g5", "h7h6", "g5h4", "e8g8", "e2e3", "b7b6"],
["d2d4", "d7d5", "c2c4", "e7e6", "g1f3", "g8f6", "b1c3", "f8e7", "c1g5", "e8g8", "e2e3", "h7h6"],
["d2d4", "d7d5", "c2c4", "e7e6", "g1f3", "g8f6", "b1c3", "f8b4"],
["d2d4", "d7d5", "c2c4", "e7e6", "g1f3", "g8f6", "b1c3", "c7c6", "c1g5"],
["d2d4", "d7d5", "c2c4", "e7e6", "g1f3", "g8f6", "b1c3", "c7c6", "e2e3", "b8d7", "d1c2", "f8d6"],
["d2d4", "d7d5", "c2c4", "e7e6", "g1f3", "g8f6", "b1c3", "c7c6", "e2e3", "b8d7", "f1d3", "d5c4", "d3c4", "b7b5", "c4d3"],
["d2d4", "d7d5", "c2c4", "e7e6", "g1f3", "g8f6", "b1c3", "c7c5"],
["d2d4", "d7d5", "c2c4", "e7e6", "g1f3", "g8f6", "c1g5"],
["d2d4", "d7d5", "c2c4", "e7e6", "g1f3", "g8f6", "g2g3"],
["d2d4", "e7e6", "c2c4", "g8f6", "b1c3", "f8b4", "d1c2", "e8g8"],
["d2d4", "e7e6", "c2c4", "g8f6", "b1c3", "f8b4", "g1f3"],
["d2d4", "e7e6", "c2c4", "g8f6", "b1c3", "f8b4", "e2e3", "b7b6"],
["d2d4", "e7e6", "c2c4", "g8f6", "b1c3", "f8b4", "e2e3", "c7c5", "f1d3"],
["d2d4", "e7e6", "c2c4", "g8f6", "b1c3", "f8b4", "e2e3", "e8g8", "f1d3", "d7d5", "g1f3"],
["d2d4", "e7e6", "c2c4", "g8f6", "b1c3", "d7d5", "c1g5", "f8e7", "e2e3"],
["d2d4", "e7e6", "c2c4", "g8f6", "b1c3", "d7d5", "g1f3", "b8d7"],
["d2d4", "e7e6", "c2c4", "g8f6", "b1c3", "d7d5", "g1f3", "f8e7", "c1f4", "e8g8", "e2e3"],
["d2d4", "e7e6", "c2c4", "g8f6", "b1c3", "d7d5", "g1f3", "f8e7", "c1g5", "h7h6", "g5h4", "e8g8", "e2e3", "b7b6"],
["d2d4", "e7e6", "c2c4", "g8f6", "b1c3", "d7d5", "g1f3", "f8e7", "c1g5", "e8g8", "e2e3", "h7h6"],
["d2d4", "e7e6", "c2c4", "g8f6", "b1c3", "d7d5", "g1f3", "f8b4"],
["d2d4", "e7e6", "c2c4", "g8f6", "b1c3", "d7d5", "g1f3", "c7c6", "c1g5"],
["d2d4", "e7e6", "c2c4", "g8f6", "b1c3", "d7d5", "g1f3", "c7c6", "e2e3", "b8d7", "d1c2", "f8d6"],
["d2d4", "e7e6", "c2c4", "g8f6", "b1c3", "d7d5", "g1f3", "c7c6", "e2e3", "b8d7", "f1d3", "d5c4", "d3c4", "b7b5", "c4d3"],
["d2d4", "e7e6", "c2c4", "g8f6", "b1c3", "d7d5", "g1f3", "c7c5"],
["d2d4", "e7e6", "c2c4", "g8f6", "b1c3", "d7d5", "c4d5", "e6d5", "c1g5"],
["d2d4", "e7e6", "c2c4", "g8f6", "g1f3", "f8b4", "b1d2"],
["d2d4", "e7e6", "c2c4", "g8f6", "g1f3", "f8b4", "c1d2"],
["d2d4", "e7e6", "c2c4", "g8f6", "g1f3", "b7b6", "b1c3", "c8b7", "a2a3", "d7d5", "c4d5", "f6d5"],
["d2d4", "e7e6", "c2c4", "g8f6", "g1f3", "b7b6", "b1c3", "f8b4"],
["d2d4", "e7e6", "c2c4", "g8f6", "g1f3", "b7b6", "a2a3", "c8b7", "b1c3", "d7d5", "c4d5", "f6d5"],
["d2d4", "e7e6", "c2c4", "g8f6", "g1f3", "b7b6", "g2g3", "c8b7", "f1g2", "f8e7", "e1g1", "e8g8", "b1c3", "f6e4", "d1c2", "e4c3", "c2c3"],
["d2d4", "e7e6", "c2c4", "g8f6", "g1f3", "b7b6", "g2g3", "c8a6", "b2b3", "f8b4", "c1d2", "b4e7"],
["d2d4", "e7e6", "c2c4", "g8f6", "g1f3", "c7c5", "d4d5", "e6d5", "c4d5", "d7d6", "b1c3", "g7g6"],
["d2d4", "e7e6", "c2c4", "g8f6", "g1f3", "d7d5", "b1c3", "b8d7"],
["d2d4", "e7e6", "c2c4", "g8f6", "g1f3", "d7d5", "b1c3", "f8e7", "c1f4", "e8g8", "e2e3"],
["d2d4", "e7e6", "c2c4", "g8f6", "g1f3", "d7d5", "b1c3", "f8e7", "c1g5", "h7h6", "g5h4", "e8g8", "e2e3", "b7b6"],
["d2d4", "e7e6", "c2c4", "g8f6", "g1f3", "d7d5", "b1c3", "f8e7", "c1g5", "e8g8", "e2e3", "h7h6"],
["d2d4", "e7e6", "c2c4", "g8f6", "g1f3", "d7d5", "b1c3", "f8b4"],
["d2d4", "e7e6", "c2c4", "g8f6", "g1f3", "d7d5", "b1c3", "c7c6", "c1g5"],
["d2d4", "e7e6", "c2c4", "g8f6", "g1f3", "d7d5", "b1c3", "c7c6", "e2e3", "b8d7", "d1c2", "f8d6"],
["d2d4", "e7e6", "c2c4", "g8f6", "g1f3", "d7d5", "b1c3", "c7c6", "e2e3", "b8d7", "f1d3", "d5c4", "d3c4", "b7b5", "c4d3"],
["d2d4", "e7e6", "c2c4", "g8f6", "g1f3", "d7d5", "b1c3", "c7c5"],
["d2d4", "e7e6", "c2c4", "g8f6", "g1f3", "d7d5", "c1g5"],
["d2d4", "e7e6", "c2c4", "g8f6", "g1f3", "d7d5", "g2g3"],
["d2d4", "e7e6", "c2c4", "g8f6", "g2g3", "d7d5", "f1g2"],
["d2d4", "f7f5"],
["d2d4", "g7g6"],
["e2e4", "g8f6", "e4e5", "f6d5", "d2d4", "d7d6", "g1f3"],
["e2e4", "c7c6", "d2d4", "d7d5", "b1c3", "d5e4", "c3e4", "b8d7"],
["e2e4", "c7c6", "d2d4", "d7d5", "b1c3", "d5e4", "c3e4", "c8f5", "e4g3", "f5g6", "h2h4", "h7h6"],
["e2e4", "c7c6", "d2d4", "d7d5", "b1d2", "d5e4", "d2e4", "b8d7"],
["e2e4", "c7c6", "d2d4", "d7d5", "b1d2", "d5e4", "d2e4", "c8f5", "e4g3", "f5g6", "h2h4", "h7h6"],
["e2e4", "c7c6", "d2d4", "d7d5", "e4d5", "c6d5", "c2c4", "g8f6", "b1c3", "e7e6", "g1f3"],
["e2e4", "c7c6", "d2d4", "d7d5", "e4e5", "c8f5"],
["e2e4", "c7c5", "b1c3", "b8c6", "g2g3", "g7g6", "f1g2", "f8g7"],
["e2e4", "c7c5", "g1f3", "b8c6", "f1b5"],
["e2e4", "c7c5", "g1f3", "b8c6", "d2d4", "c5d4", "f3d4", "g8f6", "b1c3", "d7d6", "c1g5", "e7e6", "d1d2", "f8e7", "e1c1", "e8g8"],
["e2e4", "c7c5", "g1f3", "b8c6", "d2d4", "c5d4", "f3d4", "g8f6", "b1c3", "d7d6", "c1g5", "e7e6", "d1d2", "a7a6", "e1c1", "h7h6"],
["e2e4", "c7c5", "g1f3", "b8c6", "d2d4", "c5d4", "f3d4", "g8f6", "b1c3", "d7d6", "f1c4"],
["e2e4", "c7c5", "g1f3", "b8c6", "d2d4", "c5d4", "f3d4", "g8f6", "b1c3", "e7e5", "d4b5", "d7d6"],
["e2e4", "c7c5", "g1f3", "b8c6", "d2d4", "c5d4", "f3d4", "e7e6", "b1c3", "d8c7"],
["e2e4", "c7c5", "g1f3", "b8c6", "d2d4", "c5d4", "f3d4", "e7e6", "b1c3", "a7a6"],
["e2e4", "c7c5", "g1f3", "b8c6", "d2d4", "c5d4", "f3d4", "g7g6"],
["e2e4", "c7c5", "g1f3", "d7d6", "f1b5"],
["e2e4", "c7c5", "g1f3", "d7d6", "d2d4", "c5d4", "f3d4", "g8f6", "b1c3", "b8c6", "c1g5", "e7e6", "d1d2", "f8e7", "e1c1", "e8g8"],
["e2e4", "c7c5", "g1f3", "d7d6", "d2d4", "c5d4", "f3d4", "g8f6", "b1c3", "b8c6", "c1g5", "e7e6", "d1d2", "a7a6", "e1c1", "h7h6"],
["e2e4", "c7c5", "g1f3", "d7d6", "d2d4", "c5d4", "f3d4", "g8f6", "b1c3", "b8c6", "f1c4"],
["e2e4", "c7c5", "g1f3", "d7d6", "d2d4", "c5d4", "f3d4", "g8f6", "b1c3", "a7a6", "c1e3"],
["e2e4", "c7c5", "g1f3", "d7d6", "d2d4", "c5d4", "f3d4", "g8f6", "b1c3", "a7a6", "c1g5", "e7e6", "f2f4"],
["e2e4", "c7c5", "g1f3", "d7d6", "d2d4", "c5d4", "f3d4", "g8f6", "b1c3", "a7a6", "f1e2", "e7e5", "d4b3", "f8e7"],
["e2e4", "c7c5", "g1f3", "d7d6", "d2d4", "c5d4", "f3d4", "g8f6", "b1c3", "a7a6", "f2f4"],
["e2e4", "c7c5", "g1f3", "d7d6", "d2d4", "c5d4", "f3d4", "g8f6", "b1c3", "e7e6", "f1e2"],
["e2e4", "c7c5", "g1f3", "d7d6", "d2d4", "c5d4", "f3d4", "g8f6", "b1c3", "e7e6", "g2g4"],
["e2e4", "c7c5", "g1f3", "d7d6", "d2d4", "c5d4", "f3d4", "g8f6", "b1c3", "g7g6", "c1e3", "f8g7", "f2f3"],
["e2e4", "c7c5", "g1f3", "e7e6", "b1c3"],
["e2e4", "c7c5", "g1f3", "e7e6", "d2d4", "c5d4", "f3d4", "b8c6", "b1c3", "d8c7"],
["e2e4", "c7c5", "g1f3", "e7e6", "d2d4", "c5d4", "f3d4", "b8c6", "b1c3", "a7a6"],
["e2e4", "c7c5", "g1f3", "e7e6", "d2d4", "c5d4", "f3d4", "g8f6", "b1c3", "d7d6", "f1e2"],
["e2e4", "c7c5", "g1f3", "e7e6", "d2d4", "c5d4", "f3d4", "g8f6", "b1c3", "d7d6", "g2g4"],
["e2e4", "c7c5", "g1f3", "e7e6", "d2d4", "c5d4", "f3d4", "a7a6", "f1d3"],
["e2e4", "c7c5", "c2c3"],
["e2e4", "d7d6", "d2d4", "g8f6", "b1c3", "g7g6", "f2f4", "f8g7", "g1f3"],
["e2e4", "d7d6", "d2d4", "g7g6"],
["e2e4", "d7d5", "e4d5"],
["e2e4", "e7e6", "d2d4", "d7d5", "b1c3", "f8b4", "e4e5", "c7c5", "a2a3", "b4c3", "b2c3", "g8e7"],
["e2e4", "e7e6", "d2d4", "d7d5", "b1c3", "g8f6", "c1g5"],
["e2e4", "e7e6", "d2d4", "d7d5", "b1d2", "g8f6", "e4e5"],
["e2e4", "e7e6", "d2d4", "d7d5", "b1d2", "c7c5", "g1f3"],
["e2e4", "e7e6", "d2d4", "d7d5", "b1d2", "c7c5", "e4d5", "e6d5"],
["e2e4", "e7e6", "d2d4", "d7d5", "e4e5", "c7c5", "c2c3", "b8c6", "g1f3"],
["e2e4", "e7e5", "b1c3"],
["e2e4", "e7e5", "g1f3", "b8c6", "b1c3", "g8f6", "f1b5"],
["e2e4", "e7e5", "g1f3", "b8c6", "f1c4", "f8c5"],
["e2e4", "e7e5", "g1f3", "b8c6", "f1c4", "g8f6"],
["e2e4", "e7e5", "g1f3", "b8c6", "f1b5", "g8f6", "e1g1"],
["e2e4", "e7e5", "g1f3", "b8c6", "f1b5", "a7a6", "b5c6", "d7c6", "e1g1"],
["e2e4", "e7e5", "g1f3", "b8c6", "f1b5", "a7a6", "b5a4", "g8f6", "e1g1", "f8e7", "f1e1", "b7b5", "a4b3", "d7d6", "c2c3", "e8g8", "h2h3", "c6b8", "d2d4", "b8d7"],
["e2e4", "e7e5", "g1f3", "b8c6", "f1b5", "a7a6", "b5a4", "g8f6", "e1g1", "f8e7", "f1e1", "b7b5", "a4b3", "d7d6", "c2c3", "e8g8", "h2h3", "c6a5",        "b3c2", "c7c5", "d2d4", "d8c7", "b1d2"],
["e2e4", "e7e5", "g1f3", "b8c6", "f1b5", "a7a6", "b5a4", "g8f6", "e1g1", "f8e7", "f1e1", "b7b5", "a4b3", "d7d6", "c2c3", "e8g8", "h2h3", "c8b7", "d2d4", "f8e8"],
["e2e4", "e7e5", "g1f3", "b8c6", "f1b5", "a7a6", "b5a4", "g8f6", "e1g1", "f8e7", "f1e1", "b7b5", "a4b3", "e8g8", "c2c3", "d7d6", "h2h3", "c6b8", "d2d4", "b8d7"],
["e2e4", "e7e5", "g1f3", "b8c6", "f1b5", "a7a6", "b5a4", "g8f6", "e1g1", "f8e7", "f1e1", "b7b5", "a4b3", "e8g8", "c2c3", "d7d6", "h2h3", "c6a5", "b3c2", "c7c5", "d2d4", "d8c7", "b1d2"],
["e2e4", "e7e5", "g1f3", "b8c6", "f1b5", "a7a6", "b5a4", "g8f6", "e1g1", "f8e7", "f1e1", "b7b5", "a4b3", "e8g8", "c2c3", "d7d6", "h2h3", "c8b7", "d2d4", "f8e8"],
["e2e4", "e7e5", "g1f3", "b8c6", "f1b5", "a7a6", "b5a4", "g8f6", "e1g1", "f6e4", "d2d4", "b7b5", "a4b3", "d7d5", "d4e5", "c8e6", "c2c3"],
["e2e4", "e7e5", "g1f3", "b8c6", "f1b5", "a7a6", "b5a4", "d7d6"],
["e2e4", "e7e5", "g1f3", "b8c6", "d2d4", "e5d4", "f3d4"],
["e2e4", "e7e5", "g1f3", "g8f6", "f3e5", "d7d6", "e5f3", "f6e4", "d2d4"],
["e2e4", "e7e5", "f2f4"],
["e2e4", "g7g6", "d2d4", "f8g7", "b1c3", "d7d6"],
["g2g3"]]
/-- Next move recorded for an entry: the source computes
`openning[openning.index(move)+1]` under `try`, i.e. the element after the
FIRST occurrence of the move string, and `None` past the end. -/
def nextAfter (openning : List String) (move : String) : Option String :=
  openning.get? (openning.indexOf move + 1)

/-- Replay of one opening line in the book-building loop: `board`
restarts from `chess.Board()`, each move is pushed, and after each push
the entry (resulting position, recorded next move) is appended. Returns
the entries and the final value of the loop's `board` variable. -/
def lineEntries (openning : List String) : List (Board × Option String) × Board :=
  openning.foldl
    (fun acc mv =>
      let b := pushUci acc.2 mv
      (acc.1 ++ [(b, nextAfter openning mv)], b))
    ([], startBoard)

/-- One iteration of `for openning in tscp_op`: append the line's entry
list to `book`; the loop variable `board` ends as the line's final board. -/
def bookStep (book : List (List (Board × Option String))) (openning : List String) :
    List (List (Board × Option String)) × Board :=
  let le := lineEntries openning
  (book ++ [le.1], le.2)

/-- The book-building loop of `move_from_book`, threading the pair
(`book`, `board`): crucially, `board` here is the same Python variable as
the function's parameter, rebound at every line. -/
def bookFold :
    List (List (Board × Option String)) × Board → List (List String) →
      List (List (Board × Option String)) × Board
  | p, [] => p
  | p, openning :: rest => bookFold (bookStep p.1 openning) rest

/-- State at the end of the book-building loop of `move_from_book(board)`:
`book` seeded with the single entry `[chess.Board().fen(), 'e2e4']`, and
the variable `board`, which starts as the caller's argument but is rebound
to a fresh replay board by every iteration — after the loop it is the
final position of the LAST line of `tscp_op`, not the caller's position. -/
def bookState (board : Board) : List (List (Board × Option String)) × Board :=
  bookFold ([[(startBoard, some "e2e4")]], board) tscp_op

/-- Collection loop of `move_from_book`: for every entry of every line of
`book`, in order, keep the recorded next move when the entry's position is
`is_equivalent` to `b`. The source grows `liste` by `append` inside two
nested `for` loops; the right fold below builds the same list in the same
order. -/
def listeAgainst (book : List (List (Board × Option String))) (b : Board) :
    List (Option String) :=
  book.foldr
    (fun start acc =>
      start.foldr
        (fun couple acc =>
          if is_equivalent couple.1 b then couple.2 :: acc else acc)
        acc)
    []

/-- The list `liste` of `move_from_book`: every recorded next move (the
`None` ones included — the source appends `couple[1]` unfiltered) of every
entry whose position is `is_equivalent` to the loop's final `board`
variable — NOT the caller's position, which the loop variable no longer
holds. -/
def move_from_book_liste (board : Board) : List (Option String) :=
  let st := bookState board
  listeAgainst st.1 st.2

/-- Source `move_from_book(board)` with the random draw made explicit:
`random.choice(liste)` returns `liste[k]` for a uniformly random
`k < len(liste)` and raises on an empty list, which the `except` turns
into `None`; both paths are `getD` with default `none` (a chosen element
may itself be `None`). -/
def move_from_book (board : Board) (k : Nat) : Option String :=
  let liste := move_from_book_liste board
  liste.getD (k % liste.length) none

/-- Result of `search`: either the book move (a UCI string in the source)
or the move found by `minimax_root`. -/
inductive SearchResult (M : Type) where
  | book (moveId : String)
  | engine (move : Option M)
deriving DecidableEq

/-- Branch of `search` on the bound book move: return it when it is not
`None`, else fall through to `minimax_root(3, board)`. -/
def searchStep {M : Type} (r : Rules Board M) (move : Option String)
    (board : Board) : SearchResult M :=
  match move with
  | some m => SearchResult.book m
  | none => SearchResult.engine (minimax_root r 3 ⟨board, []⟩).1

/-- Source `search(board, *args)`: bind the book move, take it if it is
not `None`, else `minimax_root(3, board)`. The extra host arguments (time
left, ponder flag) are ignored by the source. `r` supplies the external
rules engine for the search half; `k` is the book's random draw. -/
def search {M : Type} (r : Rules Board M) (board : Board) (k : Nat) :
    SearchResult M :=
  searchStep r (move_from_book board k) board

/-- Colour swap of a piece, the piece kind kept. -/
def swapPieceColor (p : Piece) : Piece :=
  ⟨p.pieceType, otherColor p.color⟩

/-- Occupancy comparison through the packed encoding: the low 64 base-13
digits of the two boards agree. Proved below to coincide with
`is_equivalent`; used to evaluate the book scan cheaply. -/
def occEquiv (b1 b2 : Board) : Bool :=
  b1.occ % 13 ^ 64 == b2.occ % 13 ^ 64

/-- Matches contributed by one entry list to `liste`, with the occupancy
test in its packed form. -/
def entriesMatches (line : List (Board × Option String)) (b : Board) :
    List (Option String) :=
  line.foldr
    (fun couple acc => if occEquiv couple.1 b then couple.2 :: acc else acc) []

/-- Matches contributed by one opening line to `liste`. -/
def lineMatches (openning : List String) (b : Board) : List (Option String) :=
  entriesMatches (lineEntries openning).1 b

/-- The board the book scan actually compares against: the final value of
the shadowed `board` variable, i.e. the start position after the single
move `g2g3` of the last repertoire line (black to move, full-move 1).
The occupancy literal is fixed here and proved below to equal
`(bookState board).2` for every caller board. -/
def g3Board : Board :=
  ⟨160982710494793918338933795702781595512782442593225126555014372300781146,
   PColor.black, 1⟩

/-- Best of a root value list: maximum for the maximizer, minimum for the
minimizer. -/
def bestVal (maximize : Bool) (vals : List Score) : Score :=
  if maximize then vals.foldr max ⊥ else vals.foldr min ⊤

/-- The last-enumerated element of `l` attaining the best value: ties in
the root loop favour the later move, so this is the move `minimax_root`
must return. -/
def lastBest {M : Type} (maximize : Bool) (val : M → Score) (l : List M) :
    Option M :=
  l.reverse.find? (fun m => val m == bestVal maximize (l.map val))

/-- Root scores of the legal moves, as a function of the current board:
0 after a move allowing a claimable draw, else the alpha-beta search at
depth − 1 with the full window. -/
def rootValues {B M : Type} (r : Rules B M) (depth : Nat) (maximize : Bool)
    (b : B) : M → Score :=
  rootValueWith r (fun b' => minimaxV r (depth - 1) b' ⊥ ⊤ (!maximize)) b

/-- A small concrete rules instance (boards and moves are numbers) used to
instantiate the abstract theorems on explicit inputs: board 100 is
checkmate, board 101 is a non-checkmate game-over position, board 0 holds
one white pawn on a1, board 1 its colour-swapped mirror image, and every
board below 3 has two legal moves. -/
def testRules : Rules Nat Nat where
  piece_at b sq :=
    if b = 0 ∧ sq = 0 then some ⟨PieceType.pawn, PColor.white⟩
    else if b = 1 ∧ sq = 63 then some ⟨PieceType.pawn, PColor.black⟩
    else none
  turn b := if b % 2 = 0 then PColor.white else PColor.black
  legal_moves b := if b < 3 then [b + 1, b + 2] else []
  push _ m := m
  is_checkmate b := b = 100
  is_game_over b := b = 100 ∨ b = 101
  can_claim_draw _ := false

/-- A rules instance over the concrete `Board` with no legal moves,
used to exercise `search` on the real start position. -/
def trivialRules : Rules Board Nat where
  piece_at b sq := board_piece_at b sq
  turn b := b.turn
  legal_moves _ := []
  push b _ := b
  is_checkmate _ := false
  is_game_over _ := false
  can_claim_draw _ := false

/-! Bridge between the state-threading search functions and their
score-level forms. `spop` after `spush` restores the previous board state
on the nose, so every loop iteration leaves the threaded state unchanged. -/

theorem spop_spush {B M : Type} (r : Rules B M) (s : SPos B) (m : M) :
    spop (spush r s m) = s := rfl

theorem spop_mk_cons {B : Type} (b b' : B) (st : List B) :
    spop ⟨b, b' :: st⟩ = ⟨b', st⟩ := rfl

theorem maxLoop_eq {B M : Type} (r : Rules B M)
    (recS : Score → SPos B → Score × SPos B) (recV : Score → B → Score)
    (hrec : ∀ a s', recS a s' = (recV a s'.board, s')) (beta : Score) :
    ∀ (ms : List M) (best alpha : Score) (s : SPos B),
      maxLoop r recS beta ms best alpha s =
        (maxLoopV (fun a m => recV a (r.push s.board m)) beta ms best alpha, s) := by
  intro ms
  induction ms with
  | nil => intro best alpha s; rfl
  | cons m rest ih =>
    intro best alpha s
    simp only [maxLoop, maxLoopV, hrec, spush, spop_mk_cons]
    by_cases hc : beta ≤ max alpha (max best (recV alpha (r.push s.board m)))
    · simp only [if_pos hc]
    · simp only [if_neg hc, ih]

theorem minLoop_eq {B M : Type} (r : Rules B M)
    (recS : Score → SPos B → Score × SPos B) (recV : Score → B → Score)
    (hrec : ∀ a s', recS a s' = (recV a s'.board, s')) (alpha : Score) :
    ∀ (ms : List M) (best beta : Score) (s : SPos B),
      minLoop r recS alpha ms best beta s =
        (minLoopV (fun a m => recV a (r.push s.board m)) alpha ms best beta, s) := by
  intro ms
  induction ms with
  | nil => intro best beta s; rfl
  | cons m rest ih =>
    intro best beta s
    simp only [minLoop, minLoopV, hrec, spush, spop_mk_cons]
    by_cases hc : min beta (min best (recV beta (r.push s.board m))) ≤ alpha
    · simp only [if_pos hc]
    · simp only [if_neg hc, ih]

theorem minimax_eq {B M : Type} (r : Rules B M) :
    ∀ (depth : Nat) (s : SPos B) (alpha beta : Score) (isMax : Bool),
      minimax r depth s alpha beta isMax =
        (minimaxV r depth s.board alpha beta isMax, s) := by
  intro depth
  induction depth with
  | zero =>
    intro s alpha beta isMax
    by_cases h1 : r.is_checkmate s.board <;> by_cases h2 : r.is_game_over s.board <;>
      simp [minimax, minimaxV, h1, h2]
  | succ d ih =>
    intro s alpha beta isMax
    by_cases h1 : r.is_checkmate s.board
    · simp [minimax, minimaxV, h1]
    · by_cases h2 : r.is_game_over s.board
      · simp [minimax, minimaxV, h1, h2]
      · cases isMax with
        | true =>
          simp only [minimax, minimaxV, h1, h2, Bool.false_eq_true, if_false, if_true]
          exact maxLoop_eq r _ (fun a b => minimaxV r d b a beta false)
            (fun a s' => ih s' a beta false) beta _ ⊥ alpha s
        | false =>
          simp only [minimax, minimaxV, h1, h2, Bool.false_eq_true, if_false, if_true]
          exact minLoop_eq r _ (fun b bd => minimaxV r d bd alpha b true)
            (fun b s' => ih s' alpha b true) alpha _ ⊤ beta s

theorem rootLoop_eq {B M : Type} (r : Rules B M) (depth : Nat) (maximize : Bool) :
    ∀ (ms : List M) (best : Score) (bm : M) (s : SPos B),
      rootLoop r depth maximize ms best bm s =
        ((rootLoopV (rootValues r depth maximize s.board) maximize ms best bm), s) := by
  intro ms
  induction ms with
  | nil => intro best bm s; rfl
  | cons m rest ih =>
    intro best bm s
    have hres :
        (if r.can_claim_draw (spush r s m).board then (intScore 0, spush r s m)
          else minimax r (depth - 1) (spush r s m) ⊥ ⊤ (!maximize)) =
        (rootValues r depth maximize s.board m, spush r s m) := by
      simp only [rootValues, rootValueWith, minimax_eq]
      by_cases hd : r.can_claim_draw (r.push s.board m)
      · simp [spush, hd]
      · simp [spush, hd]
    simp only [rootLoop, rootLoopV, hres, spop_spush, ih]
    split_ifs <;> rfl

theorem minimax_root_eq {B M : Type} (r : Rules B M) (depth : Nat) (s : SPos B) :
    minimax_root r depth s =
      (match r.legal_moves s.board with
        | [] => none
        | m0 :: _ =>
          some (rootLoopV
            (rootValues r depth (decide (r.turn s.board = PColor.white)) s.board)
            (decide (r.turn s.board = PColor.white)) (r.legal_moves s.board)
            (if decide (r.turn s.board = PColor.white) then (⊥ : Score) else ⊤) m0).2,
       s) := by
  simp only [minimax_root]
  cases hm : r.legal_moves s.board with
  | nil => rfl
  | cons m0 rest =>
    simp only [rootLoop_eq, hm]

/-! Alpha-beta pruning is score-equivalent to the unpruned search.
The loop lemmas are the fail-soft invariants: a pruned value inside the
window is exact, a pruned value at or below alpha bounds the true value
from above, a pruned value at or above beta bounds it from below. -/

theorem le_maxFold {M : Type} (v : M → Score) :
    ∀ (ms : List M) (b : Score), b ≤ maxFold v ms b := by
  intro ms
  induction ms with
  | nil => intro b; exact le_rfl
  | cons m rest ih =>
    intro b
    exact le_trans (le_max_left b (v m)) (ih (max b (v m)))

theorem maxFold_acc {M : Type} (v : M → Score) :
    ∀ (ms : List M) (b : Score), maxFold v ms b = max b (maxFold v ms ⊥) := by
  intro ms
  induction ms with
  | nil => intro b; simp [maxFold]
  | cons m rest ih =>
    intro b
    show maxFold v rest (max b (v m)) = max b (maxFold v rest (max ⊥ (v m)))
    rw [ih (max b (v m)), ih (max ⊥ (v m))]
    rw [show max ⊥ (v m) = v m from max_eq_right bot_le]
    rw [max_assoc]

theorem minFold_le {M : Type} (v : M → Score) :
    ∀ (ms : List M) (b : Score), minFold v ms b ≤ b := by
  intro ms
  induction ms with
  | nil => intro b; exact le_rfl
  | cons m rest ih =>
    intro b
    exact le_trans (ih (min b (v m))) (min_le_left b (v m))

theorem minFold_acc {M : Type} (v : M → Score) :
    ∀ (ms : List M) (b : Score), minFold v ms b = min b (minFold v ms ⊤) := by
  intro ms
  induction ms with
  | nil => intro b; simp [minFold]
  | cons m rest ih =>
    intro b
    show minFold v rest (min b (v m)) = min b (minFold v rest (min ⊤ (v m)))
    rw [ih (min b (v m)), ih (min ⊤ (v m))]
    rw [show min ⊤ (v m) = v m from min_eq_right le_top]
    rw [min_assoc]

theorem maxLoopV_spec {M : Type} (p : Score → M → Score) (v : M → Score)
    (beta : Score)
    (H : ∀ a m, a < beta →
      (p a m ≤ a → v m ≤ p a m) ∧ (beta ≤ p a m → p a m ≤ v m) ∧
      (a < p a m → p a m < beta → p a m = v m)) :
    ∀ (ms : List M) (best alpha : Score), best ≤ alpha → alpha < beta →
      best ≤ maxLoopV p beta ms best alpha ∧
      (maxLoopV p beta ms best alpha ≤ alpha →
        maxFold v ms best ≤ maxLoopV p beta ms best alpha) ∧
      (beta ≤ maxLoopV p beta ms best alpha →
        maxLoopV p beta ms best alpha ≤ maxFold v ms best) ∧
      (alpha < maxLoopV p beta ms best alpha →
        maxLoopV p beta ms best alpha < beta →
        maxLoopV p beta ms best alpha = maxFold v ms best) := by
  intro ms
  induction ms with
  | nil =>
    intro best alpha _ _
    exact ⟨le_rfl, fun _ => le_rfl, fun _ => le_rfl, fun _ _ => rfl⟩
  | cons m rest ih =>
    intro best alpha hba hab
    obtain ⟨h1, h2, h3⟩ := H alpha m hab
    have halpha1 : max alpha (max best (p alpha m)) = max alpha (p alpha m) := by
      rw [← max_assoc, max_eq_left hba]
    by_cases hcut : beta ≤ max alpha (max best (p alpha m))
    · have hbpv : beta ≤ p alpha m := by
        rw [halpha1] at hcut
        rcases le_max_iff.mp hcut with h | h
        · exact absurd h (not_le.mpr hab)
        · exact h
      have hR : maxLoopV p beta (m :: rest) best alpha = max best (p alpha m) := by
        simp only [maxLoopV, if_pos hcut]
      have hbest1 : max best (p alpha m) = p alpha m :=
        max_eq_right (le_trans hba (le_trans (le_of_lt hab) hbpv))
      rw [hR, hbest1]
      refine ⟨le_trans hba (le_trans (le_of_lt hab) hbpv), ?_, ?_, ?_⟩
      · intro h; exact absurd (lt_of_lt_of_le hab (le_trans hbpv h)) (lt_irrefl alpha)
      · intro _
        exact le_trans (h2 hbpv)
          (le_trans (le_max_right best (v m)) (le_maxFold v rest _))
      · intro _ hlt; exact absurd (lt_of_lt_of_le hlt hbpv) (lt_irrefl _)
    · have hab1 : max alpha (max best (p alpha m)) < beta := not_le.mp hcut
      have hba1 : max best (p alpha m) ≤ max alpha (max best (p alpha m)) :=
        le_max_right _ _
      obtain ⟨ih1, ih2, ih3, ih4⟩ := ih (max best (p alpha m))
        (max alpha (max best (p alpha m))) hba1 hab1
      have hR : maxLoopV p beta (m :: rest) best alpha =
          maxLoopV p beta rest (max best (p alpha m))
            (max alpha (max best (p alpha m))) := by
        simp only [maxLoopV, if_neg hcut]
      have hFrest : maxFold v rest (max best (p alpha m)) =
          max (max best (p alpha m)) (maxFold v rest ⊥) := maxFold_acc v rest _
      have hFm : maxFold v (m :: rest) best =
          max (max best (v m)) (maxFold v rest ⊥) := maxFold_acc v rest _
      rw [hR]
      rcases le_or_lt (p alpha m) alpha with hpa | hap
      · -- child failed low: its true value is at most the pruned value
        have hv : v m ≤ p alpha m := h1 hpa
        have halpha' : max alpha (max best (p alpha m)) = alpha := by
          rw [halpha1]; exact max_eq_left hpa
        have hmba : max best (p alpha m) ≤ alpha := max_le hba hpa
        rw [halpha'] at ih1 ih2 ih3 ih4 ⊢
        refine ⟨le_trans (le_max_left best _) ih1, ?_, ?_, ?_⟩
        · intro h
          refine le_trans ?_ (ih2 h)
          rw [hFm, hFrest]
          exact max_le_max (max_le_max le_rfl hv) le_rfl
        · intro h
          have hRF := ih3 h
          rw [hFrest] at hRF
          have hxlt : max best (p alpha m) <
              maxLoopV p beta rest (max best (p alpha m)) alpha :=
            lt_of_le_of_lt hmba (lt_of_lt_of_le hab h)
          rcases le_max_iff.mp hRF with hc | hc
          · exact absurd (lt_of_lt_of_le hxlt hc) (lt_irrefl _)
          · rw [hFm]; exact le_trans hc (le_max_right _ _)
        · intro hr1 hr2
          have hRF := ih4 hr1 hr2
          rw [hFrest] at hRF
          have hxlt : max best (p alpha m) <
              maxLoopV p beta rest (max best (p alpha m)) alpha :=
            lt_of_le_of_lt hmba hr1
          have hRL : maxLoopV p beta rest (max best (p alpha m)) alpha =
              maxFold v rest ⊥ := by
            rcases max_choice (max best (p alpha m)) (maxFold v rest ⊥) with hc | hc
            · rw [hc] at hRF; exact absurd (hRF ▸ hxlt) (lt_irrefl _)
            · rw [hc] at hRF; exact hRF
          rw [hFm]
          have hyL : max best (v m) ≤ maxFold v rest ⊥ := by
            refine le_of_lt (lt_of_le_of_lt ?_ (hRL ▸ hxlt))
            exact max_le_max le_rfl hv
          rw [max_eq_right hyL]
          exact hRL
      · rcases lt_or_le (p alpha m) beta with hpb | hbp
        · -- child value exact inside the window
          have heq : p alpha m = v m := h3 hap hpb
          have hbest1 : max best (p alpha m) = p alpha m :=
            max_eq_right (le_trans hba (le_of_lt hap))
          have halpha' : max alpha (max best (p alpha m)) = p alpha m := by
            rw [halpha1]; exact max_eq_right (le_of_lt hap)
          have hFF : max best (v m) = max best (p alpha m) := by rw [heq]
          rw [halpha'] at ih1 ih2 ih3 ih4 ⊢
          have hFrestF : maxFold v (m :: rest) best =
              maxFold v rest (max best (p alpha m)) := by
            show maxFold v rest (max best (v m)) = _
            rw [hFF]
          have hpvR : p alpha m ≤
              maxLoopV p beta rest (max best (p alpha m)) (p alpha m) :=
            le_trans (le_max_right best _) ih1
          refine ⟨le_trans (le_max_left best _) ih1, ?_, ?_, ?_⟩
          · intro h
            exact absurd (lt_of_lt_of_le hap (le_trans hpvR h)) (lt_irrefl _)
          · intro h
            rw [hFrestF]; exact ih3 h
          · intro hr1 hr2
            rw [hFrestF]
            rcases le_or_lt (maxLoopV p beta rest (max best (p alpha m)) (p alpha m))
              (p alpha m) with hc | hc
            · have hRp : maxLoopV p beta rest (max best (p alpha m)) (p alpha m) =
                  p alpha m := le_antisymm hc hpvR
              refine le_antisymm ?_ (ih2 (le_of_eq hRp))
              rw [hRp]
              exact le_trans (le_max_right best _) (le_maxFold v rest _)
            · exact ih4 hc hr2
        · exact absurd
            (le_trans hbp (le_trans (le_max_right best _) (le_max_right alpha _)))
            hcut

theorem minLoopV_spec {M : Type} (p : Score → M → Score) (v : M → Score)
    (alpha : Score)
    (H : ∀ b m, alpha < b →
      (p b m ≤ alpha → v m ≤ p b m) ∧ (b ≤ p b m → p b m ≤ v m) ∧
      (alpha < p b m → p b m < b → p b m = v m)) :
    ∀ (ms : List M) (best beta : Score), beta ≤ best → alpha < beta →
      minLoopV p alpha ms best beta ≤ best ∧
      (beta ≤ minLoopV p alpha ms best beta →
        minLoopV p alpha ms best beta ≤ minFold v ms best) ∧
      (minLoopV p alpha ms best beta ≤ alpha →
        minFold v ms best ≤ minLoopV p alpha ms best beta) ∧
      (alpha < minLoopV p alpha ms best beta →
        minLoopV p alpha ms best beta < beta →
        minLoopV p alpha ms best beta = minFold v ms best) := by
  intro ms
  induction ms with
  | nil =>
    intro best beta _ _
    exact ⟨le_rfl, fun _ => le_rfl, fun _ => le_rfl, fun _ _ => rfl⟩
  | cons m rest ih =>
    intro best beta hbb hab
    obtain ⟨h1, h2, h3⟩ := H beta m hab
    have hbeta1 : min beta (min best (p beta m)) = min beta (p beta m) := by
      rw [← min_assoc, min_eq_left hbb]
    by_cases hcut : min beta (min best (p beta m)) ≤ alpha
    · have hpa : p beta m ≤ alpha := by
        rw [hbeta1] at hcut
        rcases min_le_iff.mp hcut with h | h
        · exact absurd h (not_le.mpr hab)
        · exact h
      have hR : minLoopV p alpha (m :: rest) best beta = min best (p beta m) := by
        simp only [minLoopV, if_pos hcut]
      have hbest1 : min best (p beta m) = p beta m :=
        min_eq_right (le_trans hpa (le_trans (le_of_lt hab) hbb))
      rw [hR, hbest1]
      refine ⟨le_trans hpa (le_trans (le_of_lt hab) hbb), ?_, ?_, ?_⟩
      · intro h; exact absurd (lt_of_le_of_lt (le_trans h hpa) hab) (lt_irrefl beta)
      · intro _
        exact le_trans
          (le_trans (minFold_le v rest _) (min_le_right best (v m))) (h1 hpa)
      · intro hlt _; exact absurd (lt_of_le_of_lt hpa hlt) (lt_irrefl _)
    · have hab1 : alpha < min beta (min best (p beta m)) := not_le.mp hcut
      have hbb1 : min beta (min best (p beta m)) ≤ min best (p beta m) :=
        min_le_right _ _
      obtain ⟨ih1, ih2, ih3, ih4⟩ := ih (min best (p beta m))
        (min beta (min best (p beta m))) hbb1 hab1
      have hR : minLoopV p alpha (m :: rest) best beta =
          minLoopV p alpha rest (min best (p beta m))
            (min beta (min best (p beta m))) := by
        simp only [minLoopV, if_neg hcut]
      have hFrest : minFold v rest (min best (p beta m)) =
          min (min best (p beta m)) (minFold v rest ⊤) := minFold_acc v rest _
      have hFm : minFold v (m :: rest) best =
          min (min best (v m)) (minFold v rest ⊤) := minFold_acc v rest _
      rw [hR]
      rcases le_or_lt beta (p beta m) with hbp | hpb
      · -- child failed high: its true value is at least the pruned value
        have hv : p beta m ≤ v m := h2 hbp
        have hbeta' : min beta (min best (p beta m)) = beta := by
          rw [hbeta1]; exact min_eq_left hbp
        have hmbb : beta ≤ min best (p beta m) := le_min hbb hbp
        rw [hbeta'] at ih1 ih2 ih3 ih4 ⊢
        refine ⟨le_trans ih1 (min_le_left best _), ?_, ?_, ?_⟩
        · intro h
          refine le_trans (ih2 h) ?_
          rw [hFm, hFrest]
          exact min_le_min (min_le_min le_rfl hv) le_rfl
        · intro h
          have hRF := ih3 h
          rw [hFrest] at hRF
          have hxlt : minLoopV p alpha rest (min best (p beta m)) beta <
              min best (p beta m) :=
            lt_of_le_of_lt h (lt_of_lt_of_le hab hmbb)
          rcases min_le_iff.mp hRF with hc | hc
          · exact absurd (lt_of_le_of_lt hc hxlt) (lt_irrefl _)
          · rw [hFm]; exact le_trans (min_le_right _ _) hc
        · intro hr1 hr2
          have hRF := ih4 hr1 hr2
          rw [hFrest] at hRF
          have hxlt : minLoopV p alpha rest (min best (p beta m)) beta <
              min best (p beta m) :=
            lt_of_lt_of_le hr2 hmbb
          have hRL : minLoopV p alpha rest (min best (p beta m)) beta =
              minFold v rest ⊤ := by
            rcases min_choice (min best (p beta m)) (minFold v rest ⊤) with hc | hc
            · rw [hc] at hRF; exact absurd (hRF ▸ hxlt) (lt_irrefl _)
            · rw [hc] at hRF; exact hRF
          rw [hFm]
          have hyL : minFold v rest ⊤ ≤ min best (v m) := by
            refine le_of_lt (lt_of_lt_of_le (hRL ▸ hxlt) ?_)
            exact min_le_min le_rfl hv
          rw [min_eq_right hyL]
          exact hRL
      · rcases lt_or_le alpha (p beta m) with hap | hpa
        · -- child value exact inside the window
          have heq : p beta m = v m := h3 hap hpb
          have hbest1 : min best (p beta m) = p beta m :=
            min_eq_right (le_trans (le_of_lt hpb) hbb)
          have hbeta' : min beta (min best (p beta m)) = p beta m := by
            rw [hbeta1]; exact min_eq_right (le_of_lt hpb)
          have hFF : min best (v m) = min best (p beta m) := by rw [heq]
          rw [hbeta'] at ih1 ih2 ih3 ih4 ⊢
          have hFrestF : minFold v (m :: rest) best =
              minFold v rest (min best (p beta m)) := by
            show minFold v rest (min best (v m)) = _
            rw [hFF]
          have hpvR : minLoopV p alpha rest (min best (p beta m)) (p beta m) ≤
              p beta m :=
            le_trans ih1 (min_le_right best _)
          refine ⟨le_trans ih1 (min_le_left best _), ?_, ?_, ?_⟩
          · intro h
            exact absurd (lt_of_le_of_lt (le_trans h hpvR) hpb) (lt_irrefl _)
          · intro h
            rw [hFrestF]; exact ih3 h
          · intro hr1 hr2
            rw [hFrestF]
            rcases le_or_lt (p beta m)
              (minLoopV p alpha rest (min best (p beta m)) (p beta m)) with hc | hc
            · have hRp : minLoopV p alpha rest (min best (p beta m)) (p beta m) =
                  p beta m := le_antisymm hpvR hc
              refine le_antisymm (ih2 (le_of_eq hRp.symm)) ?_
              rw [hRp]
              exact le_trans (minFold_le v rest _) (min_le_right best _)
            · exact ih4 hr1 hc
        · exact absurd
            (le_trans (le_trans (min_le_right beta _) (min_le_right best _)) hpa)
            hcut

theorem minimaxV_spec {B M : Type} (r : Rules B M) :
    ∀ (d : Nat) (b : B) (alpha beta : Score) (isMax : Bool), alpha < beta →
      (minimaxV r d b alpha beta isMax ≤ alpha →
        fullMinimax r d b isMax ≤ minimaxV r d b alpha beta isMax) ∧
      (beta ≤ minimaxV r d b alpha beta isMax →
        minimaxV r d b alpha beta isMax ≤ fullMinimax r d b isMax) ∧
      (alpha < minimaxV r d b alpha beta isMax →
        minimaxV r d b alpha beta isMax < beta →
        minimaxV r d b alpha beta isMax = fullMinimax r d b isMax) := by
  intro d
  induction d with
  | zero =>
    intro b alpha beta isMax _
    have hPF : minimaxV r 0 b alpha beta isMax = fullMinimax r 0 b isMax := rfl
    rw [hPF]
    exact ⟨fun _ => le_rfl, fun _ => le_rfl, fun _ _ => rfl⟩
  | succ d ih =>
    intro b alpha beta isMax hab
    by_cases h1 : r.is_checkmate b
    · have hPF : minimaxV r (d + 1) b alpha beta isMax =
          fullMinimax r (d + 1) b isMax := by
        simp [minimaxV, fullMinimax, h1]
      rw [hPF]
      exact ⟨fun _ => le_rfl, fun _ => le_rfl, fun _ _ => rfl⟩
    · by_cases h2 : r.is_game_over b
      · have hPF : minimaxV r (d + 1) b alpha beta isMax =
            fullMinimax r (d + 1) b isMax := by
          simp [minimaxV, fullMinimax, h1, h2]
        rw [hPF]
        exact ⟨fun _ => le_rfl, fun _ => le_rfl, fun _ _ => rfl⟩
      · cases isMax with
        | true =>
          have hP : minimaxV r (d + 1) b alpha beta true =
              maxLoopV (fun a m => minimaxV r d (r.push b m) a beta false) beta
                (r.legal_moves b) ⊥ alpha := by
            simp only [minimaxV, h1, h2, Bool.false_eq_true, if_false, if_true]
          have hF : fullMinimax r (d + 1) b true =
              maxFold (fun m => fullMinimax r d (r.push b m) false)
                (r.legal_moves b) ⊥ := by
            simp only [fullMinimax, h1, h2, Bool.false_eq_true, if_false, if_true]
          rw [hP, hF]
          obtain ⟨_, s2, s3, s4⟩ := maxLoopV_spec
            (fun a m => minimaxV r d (r.push b m) a beta false)
            (fun m => fullMinimax r d (r.push b m) false) beta
            (fun a m ha => ih (r.push b m) a beta false ha)
            (r.legal_moves b) ⊥ alpha bot_le hab
          exact ⟨s2, s3, s4⟩
        | false =>
          have hP : minimaxV r (d + 1) b alpha beta false =
              minLoopV (fun bb m => minimaxV r d (r.push b m) alpha bb true) alpha
                (r.legal_moves b) ⊤ beta := by
            simp only [minimaxV, h1, h2, Bool.false_eq_true, if_false, if_true]
          have hF : fullMinimax r (d + 1) b false =
              minFold (fun m => fullMinimax r d (r.push b m) true)
                (r.legal_moves b) ⊤ := by
            simp only [fullMinimax, h1, h2, Bool.false_eq_true, if_false, if_true]
          rw [hP, hF]
          obtain ⟨_, s2, s3, s4⟩ := minLoopV_spec
            (fun bb m => minimaxV r d (r.push b m) alpha bb true)
            (fun m => fullMinimax r d (r.push b m) true) alpha
            (fun bb m hb => ih (r.push b m) alpha bb true hb)
            (r.legal_moves b) ⊤ beta le_top hab
          exact ⟨s3, s2, s4⟩

theorem minimaxV_full {B M : Type} (r : Rules B M) (d : Nat) (b : B)
    (isMax : Bool) : minimaxV r d b ⊥ ⊤ isMax = fullMinimax r d b isMax := by
  obtain ⟨s1, s2, s3⟩ := minimaxV_spec r d b ⊥ ⊤ isMax bot_lt_top
  rcases le_or_lt (minimaxV r d b ⊥ ⊤ isMax) ⊥ with h | h
  · have hP : minimaxV r d b ⊥ ⊤ isMax = ⊥ := le_bot_iff.mp h
    have hF : fullMinimax r d b isMax = ⊥ := le_bot_iff.mp (hP ▸ s1 h)
    rw [hP, hF]
  · rcases le_or_lt ⊤ (minimaxV r d b ⊥ ⊤ isMax) with h' | h'
    · have hP : minimaxV r d b ⊥ ⊤ isMax = ⊤ := top_le_iff.mp h'
      have hF : fullMinimax r d b isMax = ⊤ := top_le_iff.mp (hP ▸ s2 h')
      rw [hP, hF]
    · exact s3 h h'

theorem rootLoopV_congr {M : Type} (val1 val2 : M → Score) (maximize : Bool) :
    ∀ (l : List M) (best : Score) (bm : M), (∀ m ∈ l, val1 m = val2 m) →
      rootLoopV val1 maximize l best bm = rootLoopV val2 maximize l best bm := by
  intro l
  induction l with
  | nil => intro best bm _; rfl
  | cons m rest ih =>
    intro best bm hval
    have hm : val1 m = val2 m := hval m (List.mem_cons_self m rest)
    have hrest : ∀ m' ∈ rest, val1 m' = val2 m' :=
      fun m' hm' => hval m' (List.mem_cons_of_mem m hm')
    simp only [rootLoopV, hm]
    split_ifs <;> exact ih _ _ hrest

theorem minimax_root_full {B M : Type} (r : Rules B M) (depth : Nat)
    (s : SPos B) : (minimax_root r depth s).1 = fullMinimaxRoot r depth s.board := by
  rw [minimax_root_eq]
  simp only [fullMinimaxRoot]
  cases hm : r.legal_moves s.board with
  | nil => rfl
  | cons m0 rest =>
    have hcongr := rootLoopV_congr
      (rootValues r depth (decide (r.turn s.board = PColor.white)) s.board)
      (rootValueWith r
        (fun b' => fullMinimax r (depth - 1) b'
          (!decide (r.turn s.board = PColor.white))) s.board)
      (decide (r.turn s.board = PColor.white)) (r.legal_moves s.board)
      (if decide (r.turn s.board = PColor.white) then (⊥ : Score) else ⊤) m0
      (fun m _ => by
        simp only [rootValues, rootValueWith, minimaxV_full])
    simp only [hm] at hcongr
    simp only [hcongr]

/-- C5: for every rules engine, position and depth from 0 to 3, the score
of the alpha-beta `minimax` called with the full window (−∞, +∞) equals
the score of the unpruned full minimax at the same depth and position, and
`minimax_root` selects the same move as the unpruned root driver (which in
particular is the claimed move whenever the best root move is unique).
The equivalence in fact holds at every depth; the bound `d ≤ 3` of the
claim is carried as a hypothesis. -/
theorem alphabeta_equiv_full {B M : Type} (r : Rules B M) (d : Nat)
    (s : SPos B) (isMax : Bool) (hd : d ≤ 3) :
    (minimax r d s ⊥ ⊤ isMax).1 = fullMinimax r d s.board isMax ∧
    (minimax_root r d s).1 = fullMinimaxRoot r d s.board := by
  constructor
  · rw [minimax_eq]
    exact minimaxV_full r d s.board isMax
  · exact minimax_root_full r d s

/-- Witness for C5 at a concrete rules instance, depth 3. -/
theorem alphabeta_equiv_full_witness :
    (3 ≤ 3) ∧
    ((minimax testRules 3 ⟨0, []⟩ ⊥ ⊤ true).1 = fullMinimax testRules 3 0 true ∧
     (minimax_root testRules 3 ⟨0, []⟩).1 = fullMinimaxRoot testRules 3 0) :=
  ⟨by decide, alphabeta_equiv_full testRules 3 ⟨0, []⟩ true (by decide)⟩

/-- C7: on a checkmate position `minimax` returns −∞ for the maximizing
ply and +∞ for the minimizing ply at every depth, and on a non-checkmate
game-over position it returns exactly 0 at every depth; both checks come
before the depth test, so this holds at depth 0 as well. -/
theorem minimax_terminal {B M : Type} (r : Rules B M) (depth : Nat)
    (s : SPos B) (alpha beta : Score) (isMax : Bool) :
    (r.is_checkmate s.board = true →
      (minimax r depth s alpha beta isMax).1 =
        (if isMax then (⊥ : Score) else ⊤)) ∧
    (r.is_checkmate s.board = false → r.is_game_over s.board = true →
      (minimax r depth s alpha beta isMax).1 = intScore 0) := by
  constructor
  · intro h1
    rw [minimax_eq]
    cases depth <;> simp [minimaxV, h1]
  · intro h1 h2
    rw [minimax_eq]
    cases depth <;> simp [minimaxV, h1, h2]

/-- Witness for C7: checkmate board 100 and game-over board 101 of the
concrete rules instance, at depth 2 and at depth 0. -/
theorem minimax_terminal_witness :
    (minimax testRules 2 ⟨100, []⟩ ⊥ ⊤ true).1 = (⊥ : Score) ∧
    (minimax testRules 0 ⟨101, []⟩ ⊥ ⊤ true).1 = intScore 0 :=
  ⟨(minimax_terminal testRules 2 ⟨100, []⟩ ⊥ ⊤ true).1 (by decide),
   (minimax_terminal testRules 0 ⟨101, []⟩ ⊥ ⊤ true).2 (by decide) (by decide)⟩

/-- C8: on a position that is neither checkmate nor otherwise game over,
`minimax` at depth 0 returns exactly `evaluate_board` of that position. -/
theorem minimax_depth_zero {B M : Type} (r : Rules B M) (s : SPos B)
    (alpha beta : Score) (isMax : Bool)
    (h1 : r.is_checkmate s.board = false)
    (h2 : r.is_game_over s.board = false) :
    (minimax r 0 s alpha beta isMax).1 = intScore (evaluate_board r s.board) := by
  rw [minimax_eq]
  simp [minimaxV, h1, h2]

/-- Witness for C8 at a non-terminal board of the concrete rules
instance. -/
theorem minimax_depth_zero_witness :
    (minimax testRules 0 ⟨0, []⟩ ⊥ ⊤ true).1 =
      intScore (evaluate_board testRules 0) :=
  minimax_depth_zero testRules ⟨0, []⟩ ⊥ ⊤ true (by decide) (by decide)

/-- C9: `minimax` and `minimax_root` return the threaded board state
exactly as they received it — every pushed move is popped on every exit
path, including the early beta-cutoff returns, so the position (the whole
opaque board value: side to move, counters, rights) is restored after the
call. -/
theorem search_restores_position {B M : Type} (r : Rules B M) (depth : Nat)
    (s : SPos B) (alpha beta : Score) (isMax : Bool) :
    (minimax r depth s alpha beta isMax).2 = s ∧
    (minimax_root r depth s).2 = s := by
  constructor
  · rw [minimax_eq]
  · rw [minimax_root_eq]

/-! Tie-breaking of `minimax_root`: the tracked best is replaced on ties,
so the returned move is the LAST legal move attaining the best root
value. -/

theorem le_foldr_max {M : Type} (val : M → Score) :
    ∀ (l : List M), ∀ x ∈ l, val x ≤ (l.map val).foldr max ⊥ := by
  intro l
  induction l with
  | nil => intro x hx; exact absurd hx (List.not_mem_nil x)
  | cons a rest ih =>
    intro x hx
    rcases List.mem_cons.mp hx with h | h
    · rw [h]; exact le_max_left _ _
    · exact le_trans (ih x h) (le_max_right _ _)

theorem foldr_max_attained {M : Type} (val : M → Score) :
    ∀ (l : List M), l ≠ [] → ∃ y ∈ l, val y = (l.map val).foldr max ⊥ := by
  intro l
  induction l with
  | nil => intro h; exact absurd rfl h
  | cons a rest ih =>
    intro _
    by_cases hr : rest = []
    · subst hr
      exact ⟨a, List.mem_cons_self a [], (max_eq_left bot_le).symm⟩
    · obtain ⟨y, hy, hvy⟩ := ih hr
      rcases max_choice (val a) ((rest.map val).foldr max ⊥) with hc | hc
      · exact ⟨a, List.mem_cons_self a rest, hc.symm⟩
      · exact ⟨y, List.mem_cons_of_mem a hy, by rw [hvy]; exact hc.symm⟩

theorem foldr_min_le {M : Type} (val : M → Score) :
    ∀ (l : List M), ∀ x ∈ l, (l.map val).foldr min ⊤ ≤ val x := by
  intro l
  induction l with
  | nil => intro x hx; exact absurd hx (List.not_mem_nil x)
  | cons a rest ih =>
    intro x hx
    rcases List.mem_cons.mp hx with h | h
    · rw [h]; exact min_le_left _ _
    · exact le_trans (min_le_right _ _) (ih x h)

theorem foldr_min_attained {M : Type} (val : M → Score) :
    ∀ (l : List M), l ≠ [] → ∃ y ∈ l, val y = (l.map val).foldr min ⊤ := by
  intro l
  induction l with
  | nil => intro h; exact absurd rfl h
  | cons a rest ih =>
    intro _
    by_cases hr : rest = []
    · subst hr
      exact ⟨a, List.mem_cons_self a [], (min_eq_left le_top).symm⟩
    · obtain ⟨y, hy, hvy⟩ := ih hr
      rcases min_choice (val a) ((rest.map val).foldr min ⊤) with hc | hc
      · exact ⟨a, List.mem_cons_self a rest, hc.symm⟩
      · exact ⟨y, List.mem_cons_of_mem a hy, by rw [hvy]; exact hc.symm⟩

theorem rootLoopV_max_spec {M : Type} (val : M → Score) :
    ∀ (l : List M) (best : Score) (bm : M),
      rootLoopV val true l best bm =
        (max best ((l.map val).foldr max ⊥),
         (if best ≤ (l.map val).foldr max ⊥ then lastBest true val l
          else none).getD bm) := by
  intro l
  induction l with
  | nil =>
    intro best bm
    simp [rootLoopV, lastBest, ite_self, sup_bot_eq]
  | cons m rest ih =>
    intro best bm
    have hMV : ((m :: rest).map val).foldr max ⊥ =
        max (val m) ((rest.map val).foldr max ⊥) := rfl
    have hlb : lastBest true val (m :: rest) =
        ((rest.reverse.find? fun x =>
            val x == max (val m) ((rest.map val).foldr max ⊥)).or
          ([m].find? fun x =>
            val x == max (val m) ((rest.map val).foldr max ⊥))) := by
      simp only [lastBest, bestVal, List.reverse_cons, List.find?_append, hMV,
        if_true]
    by_cases hbm : best ≤ val m
    · have hstep : rootLoopV val true (m :: rest) best bm =
          rootLoopV val true rest (val m) m := by
        simp [rootLoopV, hbm]
      have hble : best ≤ max (val m) ((rest.map val).foldr max ⊥) :=
        le_trans hbm (le_max_left _ _)
      rw [hstep, ih, hMV, if_pos hble, max_eq_right hble]
      by_cases hvm : val m ≤ (rest.map val).foldr max ⊥
      · rw [if_pos hvm, max_eq_right hvm, hlb]
        rw [show max (val m) ((rest.map val).foldr max ⊥) =
          (rest.map val).foldr max ⊥ from max_eq_right hvm]
        by_cases hr : rest = []
        · subst hr
          have hvb : val m = (⊥ : Score) := le_bot_iff.mp hvm
          simp [lastBest, bestVal, hvb]
        · obtain ⟨y, hy, hvy⟩ := foldr_max_attained val rest hr
          have hfind : (rest.reverse.find? fun x =>
              val x == (rest.map val).foldr max ⊥).isSome := by
            rw [List.find?_isSome]
            exact ⟨y, List.mem_reverse.mpr hy, by simp [hvy]⟩
          obtain ⟨z, hz⟩ := Option.isSome_iff_exists.mp hfind
          rw [hz]
          simp [lastBest, bestVal, hz]
      · rw [if_neg hvm]
        have hlt : (rest.map val).foldr max ⊥ < val m := not_le.mp hvm
        rw [hlb]
        rw [show max (val m) ((rest.map val).foldr max ⊥) = val m from
          max_eq_left (le_of_lt hlt)]
        have hnone : (rest.reverse.find? fun x => val x == val m) = none := by
          rw [List.find?_eq_none]
          intro x hx
          have : val x < val m :=
            lt_of_le_of_lt (le_foldr_max val rest x (List.mem_reverse.mp hx)) hlt
          simp [ne_of_lt this]
        rw [hnone]
        simp
    · have hstep : rootLoopV val true (m :: rest) best bm =
          rootLoopV val true rest best bm := by
        simp [rootLoopV, hbm]
      have hvmb : val m < best := not_le.mp hbm
      have hmax : max best (max (val m) ((rest.map val).foldr max ⊥)) =
          max best ((rest.map val).foldr max ⊥) := by
        rw [← max_assoc, max_eq_left (le_of_lt hvmb)]
      rw [hstep, ih, hMV, hmax]
      by_cases hble : best ≤ (rest.map val).foldr max ⊥
      · have hble' : best ≤ max (val m) ((rest.map val).foldr max ⊥) :=
          le_trans hble (le_max_right _ _)
        rw [if_pos hble, if_pos hble', hlb]
        rw [show max (val m) ((rest.map val).foldr max ⊥) =
          (rest.map val).foldr max ⊥ from
          max_eq_right (le_of_lt (lt_of_lt_of_le hvmb hble))]
        have hr : rest ≠ [] := by
          intro h
          subst h
          have hb : best = (⊥ : Score) := le_bot_iff.mp hble
          rw [hb] at hvmb
          exact not_lt_bot hvmb
        obtain ⟨y, hy, hvy⟩ := foldr_max_attained val rest hr
        have hfind : (rest.reverse.find? fun x =>
            val x == (rest.map val).foldr max ⊥).isSome := by
          rw [List.find?_isSome]
          exact ⟨y, List.mem_reverse.mpr hy, by simp [hvy]⟩
        obtain ⟨z, hz⟩ := Option.isSome_iff_exists.mp hfind
        rw [hz]
        simp [lastBest, bestVal, hz]
      · have hble' : ¬ best ≤ max (val m) ((rest.map val).foldr max ⊥) := by
          rw [le_max_iff]
          push_neg
          exact ⟨not_le.mp hbm, not_le.mp hble⟩
        rw [if_neg hble, if_neg hble']

theorem rootLoopV_min_spec {M : Type} (val : M → Score) :
    ∀ (l : List M) (best : Score) (bm : M),
      rootLoopV val false l best bm =
        (min best ((l.map val).foldr min ⊤),
         (if (l.map val).foldr min ⊤ ≤ best then lastBest false val l
          else none).getD bm) := by
  intro l
  induction l with
  | nil =>
    intro best bm
    simp [rootLoopV, lastBest, ite_self, inf_top_eq]
  | cons m rest ih =>
    intro best bm
    have hMV : ((m :: rest).map val).foldr min ⊤ =
        min (val m) ((rest.map val).foldr min ⊤) := rfl
    have hlb : lastBest false val (m :: rest) =
        ((rest.reverse.find? fun x =>
            val x == min (val m) ((rest.map val).foldr min ⊤)).or
          ([m].find? fun x =>
            val x == min (val m) ((rest.map val).foldr min ⊤))) := by
      simp only [lastBest, bestVal, List.reverse_cons, List.find?_append, hMV,
        Bool.false_eq_true, if_false]
    by_cases hbm : val m ≤ best
    · have hstep : rootLoopV val false (m :: rest) best bm =
          rootLoopV val false rest (val m) m := by
        simp [rootLoopV, hbm]
      have hble : min (val m) ((rest.map val).foldr min ⊤) ≤ best :=
        le_trans (min_le_left _ _) hbm
      rw [hstep, ih, hMV, if_pos hble, min_eq_right hble]
      by_cases hvm : (rest.map val).foldr min ⊤ ≤ val m
      · rw [if_pos hvm, min_eq_right hvm, hlb]
        rw [show min (val m) ((rest.map val).foldr min ⊤) =
          (rest.map val).foldr min ⊤ from min_eq_right hvm]
        by_cases hr : rest = []
        · subst hr
          have hvb : val m = (⊤ : Score) := top_le_iff.mp hvm
          simp [lastBest, bestVal, hvb]
        · obtain ⟨y, hy, hvy⟩ := foldr_min_attained val rest hr
          have hfind : (rest.reverse.find? fun x =>
              val x == (rest.map val).foldr min ⊤).isSome := by
            rw [List.find?_isSome]
            exact ⟨y, List.mem_reverse.mpr hy, by simp [hvy]⟩
          obtain ⟨z, hz⟩ := Option.isSome_iff_exists.mp hfind
          rw [hz]
          simp [lastBest, bestVal, hz]
      · rw [if_neg hvm]
        have hlt : val m < (rest.map val).foldr min ⊤ := not_le.mp hvm
        rw [hlb]
        rw [show min (val m) ((rest.map val).foldr min ⊤) = val m from
          min_eq_left (le_of_lt hlt)]
        have hnone : (rest.reverse.find? fun x => val x == val m) = none := by
          rw [List.find?_eq_none]
          intro x hx
          have : val m < val x :=
            lt_of_lt_of_le hlt (foldr_min_le val rest x (List.mem_reverse.mp hx))
          simp [(ne_of_lt this).symm]
        rw [hnone]
        simp
    · have hstep : rootLoopV val false (m :: rest) best bm =
          rootLoopV val false rest best bm := by
        simp [rootLoopV, hbm]
      have hvmb : best < val m := not_le.mp hbm
      have hmin : min best (min (val m) ((rest.map val).foldr min ⊤)) =
          min best ((rest.map val).foldr min ⊤) := by
        rw [← min_assoc, min_eq_left (le_of_lt hvmb)]
      rw [hstep, ih, hMV, hmin]
      by_cases hble : (rest.map val).foldr min ⊤ ≤ best
      · have hble' : min (val m) ((rest.map val).foldr min ⊤) ≤ best :=
          le_trans (min_le_right _ _) hble
        rw [if_pos hble, if_pos hble', hlb]
        rw [show min (val m) ((rest.map val).foldr min ⊤) =
          (rest.map val).foldr min ⊤ from
          min_eq_right (le_of_lt (lt_of_le_of_lt hble hvmb))]
        have hr : rest ≠ [] := by
          intro h
          subst h
          have hb : best = (⊤ : Score) := top_le_iff.mp hble
          rw [hb] at hvmb
          exact not_top_lt hvmb
        obtain ⟨y, hy, hvy⟩ := foldr_min_attained val rest hr
        have hfind : (rest.reverse.find? fun x =>
            val x == (rest.map val).foldr min ⊤).isSome := by
          rw [List.find?_isSome]
          exact ⟨y, List.mem_reverse.mpr hy, by simp [hvy]⟩
        obtain ⟨z, hz⟩ := Option.isSome_iff_exists.mp hfind
        rw [hz]
        simp [lastBest, bestVal, hz]
      · have hble' : ¬ min (val m) ((rest.map val).foldr min ⊤) ≤ best := by
          rw [min_le_iff]
          push_neg
          exact ⟨not_le.mp hbm, not_le.mp hble⟩
        rw [if_neg hble, if_neg hble']

/-- C6: `minimax_root` scores each root move by `rootValues` (0 when the
position after the move allows a claimable draw, else the depth − 1 search
with the full window) and returns the LAST enumerated legal move attaining
the best score — the `>=` / `<=` replacement tests make ties favour the
later move, and the first-move initialisation of the tracked best is
visible only through the (unreachable for a non-empty move list) default
of the selection. -/
theorem minimax_root_picks_last_best {B M : Type} (r : Rules B M)
    (depth : Nat) (s : SPos B) (hne : r.legal_moves s.board ≠ []) :
    (minimax_root r depth s).1 =
      lastBest (decide (r.turn s.board = PColor.white))
        (rootValues r depth (decide (r.turn s.board = PColor.white)) s.board)
        (r.legal_moves s.board) := by
  rw [minimax_root_eq]
  cases hmx : decide (r.turn s.board = PColor.white) with
  | true =>
    cases hm : r.legal_moves s.board with
    | nil => exact absurd hm hne
    | cons m0 rest =>
      simp only [hmx, hm, if_true]
      rw [rootLoopV_max_spec, if_pos bot_le]
      obtain ⟨y, hy, hvy⟩ :=
        foldr_max_attained (rootValues r depth true s.board) (m0 :: rest)
          (List.cons_ne_nil m0 rest)
      have hfind : ((m0 :: rest).reverse.find? fun x =>
          rootValues r depth true s.board x ==
            bestVal true ((m0 :: rest).map
              (rootValues r depth true s.board))).isSome := by
        rw [List.find?_isSome]
        refine ⟨y, List.mem_reverse.mpr hy, ?_⟩
        simp [bestVal, hvy]
      obtain ⟨z, hz⟩ := Option.isSome_iff_exists.mp hfind
      rw [show lastBest true (rootValues r depth true s.board) (m0 :: rest) =
        some z from hz]
      rfl
  | false =>
    cases hm : r.legal_moves s.board with
    | nil => exact absurd hm hne
    | cons m0 rest =>
      simp only [hmx, hm, Bool.false_eq_true, if_false]
      rw [rootLoopV_min_spec, if_pos le_top]
      obtain ⟨y, hy, hvy⟩ :=
        foldr_min_attained (rootValues r depth false s.board) (m0 :: rest)
          (List.cons_ne_nil m0 rest)
      have hfind : ((m0 :: rest).reverse.find? fun x =>
          rootValues r depth false s.board x ==
            bestVal false ((m0 :: rest).map
              (rootValues r depth false s.board))).isSome := by
        rw [List.find?_isSome]
        refine ⟨y, List.mem_reverse.mpr hy, ?_⟩
        simp [bestVal, hvy]
      obtain ⟨z, hz⟩ := Option.isSome_iff_exists.mp hfind
      rw [show lastBest false (rootValues r depth false s.board) (m0 :: rest) =
        some z from hz]
      rfl

/-- Witness for C6 at the concrete rules instance (two legal moves,
white to move). -/
theorem minimax_root_picks_last_best_witness :
    testRules.legal_moves 0 ≠ [] ∧
    (minimax_root testRules 1 ⟨0, []⟩).1 =
      lastBest (decide (testRules.turn 0 = PColor.white))
        (rootValues testRules 1 (decide (testRules.turn 0 = PColor.white)) 0)
        (testRules.legal_moves 0) :=
  ⟨by decide, minimax_root_picks_last_best testRules 1 ⟨0, []⟩ (by decide)⟩

/-! Antisymmetry of the evaluation under colour swap plus the board
mirroring that relates each black piece-square table to its white
counterpart (square `i` to square `63 - i`, the reversal used to build the
black tables). -/

theorem foldl_add_init (f : Nat → ℤ) :
    ∀ (l : List Nat) (a : ℤ),
      l.foldl (fun t i => t + f i) a = a + l.foldl (fun t i => t + f i) 0 := by
  intro l
  induction l with
  | nil => intro a; simp
  | cons x rest ih =>
    intro a
    show rest.foldl _ (a + f x) = a + rest.foldl _ (0 + f x)
    rw [ih (a + f x), ih (0 + f x)]
    ring

theorem foldl_range_add_eq_sum (f : Nat → ℤ) :
    ∀ (n : Nat),
      (List.range n).foldl (fun t i => t + f i) 0 = ∑ i in Finset.range n, f i := by
  intro n
  induction n with
  | zero => simp
  | succ n ih =>
    rw [List.range_succ, List.foldl_append, Finset.sum_range_succ, ih]
    rfl

theorem countP_range_eq_sum (p : Nat → Bool) :
    ∀ (n : Nat),
      (List.range n).countP p = ∑ i in Finset.range n, (if p i then 1 else 0) := by
  intro n
  induction n with
  | zero => simp
  | succ n ih =>
    rw [List.range_succ, List.countP_append, Finset.sum_range_succ, ih]
    simp [List.countP_cons]

theorem getD_reverse_of_length64 (l : List ℤ) (hl : l.length = 64) (i : Nat)
    (hi : i < 64) : l.reverse.getD (63 - i) 0 = l.getD i 0 := by
  have h1 : 63 - i < l.length := by omega
  have h2 : i < l.length := by omega
  rw [List.getD_eq_getElem?_getD, List.getD_eq_getElem?_getD,
    List.getElem?_reverse (by simpa using h1)]
  have : l.length - 1 - (63 - i) = i := by omega
  rw [this]

theorem piece_value_swap (p : Piece) :
    piece_value (some (swapPieceColor p)) = piece_value (some p) := by
  obtain ⟨t, c⟩ := p
  cases t <;> rfl

theorem eval_piece_swap (p : Piece) (endgame : Bool) (i : Nat) (hi : i < 64) :
    eval_piece (some (swapPieceColor p)) (63 - i) endgame =
      eval_piece (some p) i endgame := by
  have h63 : 63 - (63 - i) = i := by omega
  obtain ⟨t, c⟩ := p
  have tabs : ∀ (tab : List ℤ), tab.length = 64 →
      tab.reverse.getD (63 - i) 0 = tab.getD i 0 :=
    fun tab hl => getD_reverse_of_length64 tab hl i hi
  have tabs' : ∀ (tab : List ℤ), tab.length = 64 →
      tab.getD (63 - i) 0 = tab.reverse.getD i 0 := by
    intro tab hl
    have := getD_reverse_of_length64 tab hl (63 - i) (by omega)
    rw [h63] at this
    exact this.symm
  cases t <;> cases c <;> cases endgame <;>
    simp only [eval_piece, swapPieceColor, otherColor] <;>
    first
      | exact tabs _ (by decide)
      | exact tabs' _ (by decide)

theorem countP_swap_invariant (q : Option Piece → Bool)
    (hq : ∀ o : Option Piece, q (o.map swapPieceColor) = q o)
    (f g : Nat → Option Piece)
    (hfg : ∀ sq, sq < 64 → f sq = (g (63 - sq)).map swapPieceColor) :
    (List.range 64).countP (fun sq => q (f sq)) =
      (List.range 64).countP (fun sq => q (g sq)) := by
  rw [countP_range_eq_sum, countP_range_eq_sum]
  rw [← Finset.sum_range_reflect (fun i => if q (f i) then 1 else 0) 64]
  apply Finset.sum_congr rfl
  intro j hj
  have hj64 : j < 64 := Finset.mem_range.mp hj
  rw [hfg (64 - 1 - j) (by omega)]
  rw [show (63 - (64 - 1 - j)) = j from by omega]
  rw [hq]

theorem check_end_game_swap {B M : Type} (r : Rules B M) (b b' : B)
    (h : ∀ sq, sq < 64 →
      r.piece_at b' sq = (r.piece_at b (63 - sq)).map swapPieceColor) :
    check_end_game r b' = check_end_game r b := by
  have hqueens : (List.range 64).countP (fun square =>
      match r.piece_at b' square with
      | some piece => piece.pieceType = PieceType.queen
      | none => false) = (List.range 64).countP (fun square =>
      match r.piece_at b square with
      | some piece => piece.pieceType = PieceType.queen
      | none => false) :=
    countP_swap_invariant
      (fun o => match o with
        | some piece => piece.pieceType = PieceType.queen
        | none => false)
      (fun o => by cases o <;> rfl) (r.piece_at b') (r.piece_at b) h
  have hminors : (List.range 64).countP (fun square =>
      match r.piece_at b' square with
      | some piece => piece.pieceType = PieceType.bishop ∨
          piece.pieceType = PieceType.knight
      | none => false) = (List.range 64).countP (fun square =>
      match r.piece_at b square with
      | some piece => piece.pieceType = PieceType.bishop ∨
          piece.pieceType = PieceType.knight
      | none => false) :=
    countP_swap_invariant
      (fun o => match o with
        | some piece => piece.pieceType = PieceType.bishop ∨
            piece.pieceType = PieceType.knight
        | none => false)
      (fun o => by cases o <;> rfl) (r.piece_at b') (r.piece_at b) h
  simp only [check_end_game]
  rw [hqueens, hminors]

theorem square_score_swap {B M : Type} (r : Rules B M) (b b' : B) (j : Nat)
    (hj : j < 64)
    (hend : check_end_game r b' = check_end_game r b)
    (hsq : r.piece_at b' (63 - j) = (r.piece_at b j).map swapPieceColor) :
    square_score r b' (63 - j) = - square_score r b j := by
  rw [square_score, square_score, hsq, hend]
  cases hp : r.piece_at b j with
  | none => simp
  | some p =>
    simp only [Option.map_some']
    rw [piece_value_swap, eval_piece_swap p _ j hj]
    obtain ⟨t, c⟩ := p
    cases c <;> simp [swapPieceColor, otherColor]

/-- C4: `evaluate_board` is antisymmetric under the simultaneous colour
swap and board mirroring (square `sq` to square `63 - sq`, the reversal by
which every black piece-square table is built from its white counterpart):
if `b'` holds, on square `sq`, the colour-swapped piece that `b` holds on
square `63 - sq`, then the evaluations are negatives of each other. -/
theorem evaluate_board_antisymm {B M : Type} (r : Rules B M) (b b' : B)
    (h : ∀ sq, sq < 64 →
      r.piece_at b' sq = (r.piece_at b (63 - sq)).map swapPieceColor) :
    evaluate_board r b' = - evaluate_board r b := by
  have hend : check_end_game r b' = check_end_game r b :=
    check_end_game_swap r b b' h
  rw [evaluate_board, evaluate_board, foldl_range_add_eq_sum,
    foldl_range_add_eq_sum]
  rw [← Finset.sum_range_reflect (fun i => square_score r b' i) 64]
  rw [← Finset.sum_neg_distrib]
  apply Finset.sum_congr rfl
  intro j hj
  have hj64 : j < 64 := Finset.mem_range.mp hj
  rw [show (64 - 1 - j) = 63 - j from by omega]
  refine square_score_swap r b b' j hj64 hend ?_
  have := h (63 - j) (by omega)
  rw [show (63 - (63 - j)) = j from by omega] at this
  exact this

/-- Witness for C4: the one-white-pawn board 0 of the concrete rules
instance against its colour-swapped mirror board 1. -/
theorem evaluate_board_antisymm_witness :
    (∀ sq, sq < 64 → testRules.piece_at 1 sq =
      (testRules.piece_at 0 (63 - sq)).map swapPieceColor) ∧
    evaluate_board testRules 1 = - evaluate_board testRules 0 :=
  ⟨by decide, evaluate_board_antisymm testRules 0 1 (by decide)⟩

/-! The opening-book lookup. `is_equivalent` compares the 64 squares one
by one; on the packed representation that is exactly equality of the low
64 base-13 digits, which lets the 3792-entry scan be evaluated by the
kernel. -/

theorem codePiece_inj (d1 d2 : Nat) (h1 : d1 < 13) (h2 : d2 < 13) :
    codePiece d1 = codePiece d2 ↔ d1 = d2 := by
  have h : ∀ d1, d1 < 13 → ∀ d2, d2 < 13 →
      (codePiece d1 = codePiece d2 ↔ d1 = d2) := by decide
  exact h d1 h1 d2 h2

theorem digits_eq_iff_mod_eq :
    ∀ (k n m : Nat),
      (∀ i, i < k → n / 13 ^ i % 13 = m / 13 ^ i % 13) ↔
        n % 13 ^ k = m % 13 ^ k := by
  intro k
  induction k with
  | zero =>
    intro n m
    constructor
    · intro _; simp [Nat.pow_zero, Nat.mod_one]
    · intro _ i hi; omega
  | succ k ih =>
    intro n m
    constructor
    · intro h
      rw [Nat.mod_pow_succ, Nat.mod_pow_succ,
        (ih n m).mp (fun i hi => h i (by omega)), h k (by omega)]
    · intro h
      have hdvd : (13 : Nat) ^ k ∣ 13 ^ (k + 1) := pow_dvd_pow 13 (by omega)
      have h1 : n % 13 ^ k = m % 13 ^ k := by
        rw [← Nat.mod_mod_of_dvd n hdvd, ← Nat.mod_mod_of_dvd m hdvd, h]
      intro i hi
      rcases Nat.lt_succ_iff_lt_or_eq.mp hi with hik | hik
      · exact (ih n m).mpr h1 i hik
      · subst hik
        have h2 := h
        rw [Nat.mod_pow_succ, Nat.mod_pow_succ, h1] at h2
        have h3 := Nat.add_left_cancel h2
        exact Nat.eq_of_mul_eq_mul_left (Nat.pos_pow_of_pos i (by omega)) h3

theorem is_equivalent_eq_occEquiv (b1 b2 : Board) :
    is_equivalent b1 b2 = occEquiv b1 b2 := by
  have hiff : (∀ sq, sq < 64 → board_piece_at b1 sq = board_piece_at b2 sq) ↔
      b1.occ % 13 ^ 64 = b2.occ % 13 ^ 64 := by
    constructor
    · intro h
      refine (digits_eq_iff_mod_eq 64 _ _).mp ?_
      intro i hi
      have hb := h i hi
      rw [board_piece_at, board_piece_at] at hb
      exact (codePiece_inj _ _ (Nat.mod_lt _ (by omega))
        (Nat.mod_lt _ (by omega))).mp hb
    · intro h sq hsq
      rw [board_piece_at, board_piece_at,
        (digits_eq_iff_mod_eq 64 _ _).mpr h sq hsq]
  rw [is_equivalent, occEquiv]
  by_cases h : b1.occ % 13 ^ 64 = b2.occ % 13 ^ 64
  · have hall : (List.range 64).all (fun square =>
        board_piece_at b1 square == board_piece_at b2 square) = true := by
      rw [List.all_eq_true]
      intro sq hsq
      exact beq_iff_eq.mpr (hiff.mpr h sq (List.mem_range.mp hsq))
    rw [hall]
    exact (beq_iff_eq.mpr h).symm
  · have hne : ¬ ∀ sq, sq < 64 → board_piece_at b1 sq = board_piece_at b2 sq :=
      fun hc => h (hiff.mp hc)
    cases hall : (List.range 64).all (fun square =>
        board_piece_at b1 square == board_piece_at b2 square) with
    | true =>
      exact absurd
        (fun sq hsq => beq_iff_eq.mp
          (List.all_eq_true.mp hall sq (List.mem_range.mpr hsq))) hne
    | false =>
      symm
      simp only [beq_eq_false_iff_ne, ne_eq]
      exact h

theorem bookFold_fst :
    ∀ (ls : List (List String)) (acc : List (List (Board × Option String)))
      (bd : Board),
      (bookFold (acc, bd) ls).1 =
        acc ++ ls.map (fun o => (lineEntries o).1) := by
  intro ls
  induction ls with
  | nil => intro acc bd; simp [bookFold]
  | cons o rest ih =>
    intro acc bd
    show (bookFold (bookStep acc o) rest).1 = _
    rw [bookStep]
    rw [ih]
    simp

theorem bookFold_indep (ls : List (List String)) (hne : ls ≠ [])
    (acc : List (List (Board × Option String))) (b1 b2 : Board) :
    bookFold (acc, b1) ls = bookFold (acc, b2) ls := by
  cases ls with
  | nil => exact absurd rfl hne
  | cons o rest => rfl

theorem tscp_op_ne_nil : tscp_op ≠ [] := by
  intro h
  have h2 : tscp_op.head? = none := by rw [h]; rfl
  rw [show tscp_op.head? =
    some ["g1f3", "g8f6", "c2c4", "b7b6", "g2g3"] from rfl] at h2
  exact Option.noConfusion h2

theorem bookState_indep (b1 b2 : Board) : bookState b1 = bookState b2 :=
  bookFold_indep tscp_op tscp_op_ne_nil _ b1 b2

theorem occFold_acc (b : Board) :
    ∀ (line : List (Board × Option String)) (acc : List (Option String)),
      line.foldr
        (fun couple acc => if occEquiv couple.1 b then couple.2 :: acc
          else acc) acc = entriesMatches line b ++ acc := by
  intro line
  induction line with
  | nil => intro acc; rfl
  | cons couple rest ih =>
    intro acc
    have hunfold : entriesMatches (couple :: rest) b =
        if occEquiv couple.1 b then couple.2 :: entriesMatches rest b
        else entriesMatches rest b := rfl
    rw [List.foldr_cons, ih acc, hunfold]
    by_cases hc : occEquiv couple.1 b = true
    · rw [if_pos hc, if_pos hc, List.cons_append]
    · rw [if_neg hc, if_neg hc]

theorem listeAgainst_decomp :
    ∀ (book : List (List (Board × Option String))) (b : Board),
      listeAgainst book b =
        book.foldr (fun line acc => entriesMatches line b ++ acc) [] := by
  intro book
  induction book with
  | nil => intro b; rfl
  | cons line rest ih =>
    intro b
    show line.foldr
      (fun couple acc => if is_equivalent couple.1 b then couple.2 :: acc
        else acc) (listeAgainst rest b) = _
    simp only [is_equivalent_eq_occEquiv]
    rw [occFold_acc, ih]
    rfl

theorem bookState_fst (bd : Board) :
    (bookState bd).1 =
      [[(startBoard, some "e2e4")]] ++
        tscp_op.map (fun o => (lineEntries o).1) := by
  rw [bookState]
  exact bookFold_fst tscp_op _ bd

set_option maxRecDepth 100000 in
theorem bookState_snd (bd : Board) : (bookState bd).2 = g3Board := by
  have h : (bookState bd).2 = (bookState startBoard).2 :=
    congrArg Prod.snd (bookState_indep bd startBoard)
  rw [h]
  decide

set_option maxRecDepth 400000 in
set_option maxHeartbeats 64000000 in
theorem bookScan_eval :
    tscp_op.foldr (fun o acc => lineMatches o g3Board ++ acc) [] = [none] := by
  decide

set_option maxRecDepth 10000 in
theorem seedMatches_eval :
    entriesMatches [(startBoard, some "e2e4")] g3Board = [] := by
  decide

theorem move_from_book_liste_eq (bd : Board) :
    move_from_book_liste bd = [none] := by
  show listeAgainst (bookState bd).1 (bookState bd).2 = [none]
  rw [bookState_snd bd, bookState_fst bd, listeAgainst_decomp,
    List.foldr_append, List.foldr_map]
  show entriesMatches [(startBoard, some "e2e4")] g3Board ++
    tscp_op.foldr (fun o acc => lineMatches o g3Board ++ acc) [] = [none]
  rw [seedMatches_eval, bookScan_eval]
  rfl

theorem move_from_book_none (bd : Board) (k : Nat) :
    move_from_book bd k = none := by
  show (move_from_book_liste bd).getD
    (k % (move_from_book_liste bd).length) none = none
  rw [move_from_book_liste_eq bd]
  show ([none] : List (Option String)).getD (k % 1) none = none
  rw [Nat.mod_one]
  rfl

/-- C1 (code evaluated at the failing input, the starting position):
the collected candidate list of `move_from_book` is `[none]` — it contains
a `None` next-move (the source appends `couple[1]` without the non-none
filter the claim describes) and does not contain the seeded reply
`"e2e4"`, because the entries are tested against the final board of the
book-building loop (the position after `g2g3`), which the shadowed
`board` variable holds, and not against the caller's position: the second
conjunct shows the seeded start-position entry fails the occupancy test
the code actually performs. -/
theorem move_from_book_liste_startpos :
    move_from_book_liste startBoard = [none] ∧
    is_equivalent startBoard (bookState startBoard).2 = false :=
  ⟨move_from_book_liste_eq startBoard, by
    rw [bookState_snd startBoard]
    decide⟩

/-- C2 (code evaluated at the failing input): on the exact starting
position `move_from_book` returns `none` for every random draw — the
candidate list is `[none]`, so `random.choice` always picks `None` —
contradicting the claim that it always returns a non-none move. -/
theorem move_from_book_startpos_none (k : Nat) :
    move_from_book startBoard k = none :=
  move_from_book_none startBoard k

/-- C3 counterexample: the starting position has full-move number 1 < 3,
yet `search` neither returns a uniformly random legal move nor skips the
book and the minimax: it consults the book (which yields nothing) and
returns the depth-3 `minimax_root` result, independently of the random
draw. -/
theorem search_startpos_uses_engine :
    startBoard.fullmove < 3 ∧
    search trivialRules startBoard 0 =
      SearchResult.engine (minimax_root trivialRules 3 ⟨startBoard, []⟩).1 := by
  refine ⟨by decide, ?_⟩
  show searchStep trivialRules (move_from_book startBoard 0) startBoard = _
  rw [move_from_book_none startBoard 0]
  rfl

/-- C3 amended: for every position, whatever its full-move number, and
every rules engine and random draw, `search` returns the engine branch
with the depth-3 `minimax_root` move — there is no early-game random-move
rule, and the book lookup always returns `none`. -/
theorem search_always_engine {M : Type} (r : Rules Board M) (bd : Board)
    (k : Nat) :
    search r bd k = SearchResult.engine (minimax_root r 3 ⟨bd, []⟩).1 := by
  show searchStep r (move_from_book bd k) bd = _
  rw [move_from_book_none bd k]
  rfl

/-- C10: `move_from_book` has the same candidate list and the same result
for every pair of input positions and every random draw — the `board`
parameter is rebound to a fresh replay board by the book-building loop
before its caller-supplied value is ever read. -/
theorem move_from_book_input_independent (b1 b2 : Board) :
    move_from_book_liste b1 = move_from_book_liste b2 ∧
    ∀ k, move_from_book b1 k = move_from_book b2 k := by
  have hst : bookState b1 = bookState b2 := bookState_indep b1 b2
  have hl : move_from_book_liste b1 = move_from_book_liste b2 := by
    simp only [move_from_book_liste, hst]
  exact ⟨hl, fun k => by simp only [move_from_book, hl]⟩

end CheesePy
